import Mathlib

/-!
Verification of the bcm2-utils nonvolatile-settings container codec
(`src/gwsettings.cc`, `src/profiledef.c`, `src/util.cc`).

Byte buffers are modelled as `List Nat` (each element a byte value).
External library primitives (OpenSSL MD5 / AES block functions) are taken
as abstract function parameters: the claims under study are about the
codec's framing, search order and state updates, never about the cipher
internals.  Classes that are declared in headers not present under `src/`
(`nv_u32`, `nv_version`, `nv_group`, `profile::list`) are modelled from the
spec where noted.
-/

set_option maxRecDepth 100000

namespace Bcm2Spec

abbrev Bytes := List Nat

/-- Big-endian serialization of a 32-bit word, as written by `nv_u32::write`.
Modelled from the spec: `nv_u32` is not under `src/`; §6 of the spec fixes
all multi-byte integers as big-endian. -/
def be32 (n : Nat) : Bytes :=
  [n / 16777216 % 256, n / 65536 % 256, n / 256 % 256, n % 256]

/-- Big-endian read of a 32-bit word from the head of a buffer, as read by
`nv_u32::read`.  Modelled from the spec (see `be32`).  Callers check the
length before reading; the `_ => 0` branch is never reached by them. -/
def rd32 : Bytes → Nat
  | b0 :: b1 :: b2 :: b3 :: _ => ((b0 * 256 + b1) * 256 + b2) * 256 + b3
  | _ => 0

/-- One shift step of the reflected CRC-32 algorithm (right shift, reversed
polynomial 0xEDB88320, the reflection of 0x04C11DB7). -/
def crcStep (c : Nat) : Nat :=
  if c % 2 = 1 then (c / 2) ^^^ 0xEDB88320 else c / 2

/-- Feed one byte into the reflected CRC-32 state. -/
def crc32_update (c b : Nat) : Nat := crcStep^[8] (c ^^^ (b % 256))

/-- The raw reflected CRC register after processing `buf`, starting from the
initial value 0xFFFFFFFF, with no final XOR applied. -/
def crc32_raw (buf : Bytes) : Nat := buf.foldl crc32_update 0xFFFFFFFF

/-- The checksum of `boost::crc_32_type` over `buf`: polynomial 0x04C11DB7,
reflected input and output, initial value 0xFFFFFFFF, final XOR 0xFFFFFFFF.
This is also exactly the CRC the spec describes for permdyn. -/
def crc32_std (buf : Bytes) : Nat := crc32_raw buf ^^^ 0xFFFFFFFF

/-- `permdyn::crc32` (gwsettings.cc:135-139): the `boost::crc_32_type`
checksum XORed once more with 0xFFFFFFFF, cancelling boost's final XOR. -/
def permdyn_crc32 (buf : Bytes) : Nat := crc32_std buf ^^^ 0xFFFFFFFF

/-- The 74-byte gwsettings magic literal (gwsettings.cc:370). -/
def sMagicStr : String :=
  "6u9E9eWF0bt9Y8Rw690Le4669JYe4d-056T9p4ijm4EA6u9ee659jn9E-54e4j6rPj069K-670"

/-- The gwsettings magic as bytes. -/
def sMagic : Bytes := sMagicStr.data.map Char.toNat

/-- The codec-relevant fields of a device profile (spec §4.6): the MD5
suffix key and the candidate AES keys, both already hex-decoded.  Modelled
from the spec: the `profile` wrapper class that decodes `cfg_md5key` /
`cfg_defkeys` is not under `src/`; the raw data is `src/profiledef.c`. -/
structure Profile where
  name : String
  md5_key : Bytes
  default_keys : List Bytes
deriving DecidableEq

/-- profiledef.c:22-46, profile "generic": no cfg_md5key, no cfg_defkeys. -/
def genericP : Profile := { name := "generic", md5_key := [], default_keys := [] }

/-- profiledef.c:47-55, profile "cg3000": cfg_md5key 3250736c633b752865676d64302d2778. -/
def cg3000P : Profile :=
  { name := "cg3000"
    md5_key := [0x32, 0x50, 0x73, 0x6c, 0x63, 0x3b, 0x75, 0x28,
                0x65, 0x67, 0x6d, 0x64, 0x30, 0x2d, 0x27, 0x78]
    default_keys := [] }

/-- profiledef.c:56-104, profile "twg850": cfg_md5key 544d4d5f5457473835302d3400000000. -/
def twg850P : Profile :=
  { name := "twg850"
    md5_key := [0x54, 0x4d, 0x4d, 0x5f, 0x54, 0x57, 0x47, 0x38,
                0x35, 0x30, 0x2d, 0x34, 0x00, 0x00, 0x00, 0x00]
    default_keys := [] }

/-- profiledef.c:105-112, profile "tcw770": cfg_md5key 544d4d5f544357373730000000000000. -/
def tcw770P : Profile :=
  { name := "tcw770"
    md5_key := [0x54, 0x4d, 0x4d, 0x5f, 0x54, 0x43, 0x57, 0x37,
                0x37, 0x30, 0x00, 0x00, 0x00, 0x00, 0x00, 0x00]
    default_keys := [] }

/-- profiledef.c:113-150, profile "twg870": cfg_md5key 544d4d5f545747383730000000000000,
one default key 0001020304050607080910111213141516171819202122232425262728293031. -/
def twg870P : Profile :=
  { name := "twg870"
    md5_key := [0x54, 0x4d, 0x4d, 0x5f, 0x54, 0x57, 0x47, 0x38,
                0x37, 0x30, 0x00, 0x00, 0x00, 0x00, 0x00, 0x00]
    default_keys := [[0x00, 0x01, 0x02, 0x03, 0x04, 0x05, 0x06, 0x07,
                      0x08, 0x09, 0x10, 0x11, 0x12, 0x13, 0x14, 0x15,
                      0x16, 0x17, 0x18, 0x19, 0x20, 0x21, 0x22, 0x23,
                      0x24, 0x25, 0x26, 0x27, 0x28, 0x29, 0x30, 0x31]] }

/-- profiledef.c:151-221, profile "tc7200": cfg_md5key 544d4d5f544337323030000000000000,
one default key 000102030405060708090a0b0c0d0e0f101112131415161718191a1b1c1d1e1f. -/
def tc7200P : Profile :=
  { name := "tc7200"
    md5_key := [0x54, 0x4d, 0x4d, 0x5f, 0x54, 0x43, 0x37, 0x32,
                0x30, 0x30, 0x00, 0x00, 0x00, 0x00, 0x00, 0x00]
    default_keys := [List.range 32] }

/-- The profile registry in declaration order (profiledef.c:21-224; the empty
end marker is not part of the list). -/
def bcm2Profiles : List Profile :=
  [genericP, cg3000P, twg850P, tcw770P, twg870P, tc7200P]

/-- `gwsettings::calc_checksum` (gwsettings.cc:260-274): MD5 over the buffer
followed by the profile's md5 key (an empty key contributes nothing).  `md5`
is the abstract digest function. -/
def calcChecksum (md5 : Bytes → Bytes) (buf : Bytes) (p : Profile) : Bytes :=
  md5 (buf ++ p.md5_key)

/-- `gwsettings::validate_checksum_and_detect_profile` (gwsettings.cc:239-258).
Returns (m_profile, m_is_auto_profile, m_checksum_valid).  With a supplied
profile only the checksum is validated; otherwise the registry is scanned in
order and the first matching profile is taken. -/
def detectProfile (md5 : Bytes → Bytes) (registry : List Profile)
    (prof : Option Profile) (cand buf : Bytes) : Option Profile × Bool × Bool :=
  match prof with
  | some p => (some p, false, cand == calcChecksum md5 buf p)
  | none =>
    match registry.find? (fun p => cand == calcChecksum md5 buf p) with
    | some p => (some p, true, true)
    | none => (none, false, false)

/-- Fuel-indexed block loop of `gwsettings::crypt` (gwsettings.cc:339-353):
while at least 16 bytes remain, apply the block function to the next 16-byte
block; a trailing sub-block is copied verbatim.  The fuel only forces
structural recursion; `cryptBlocks` supplies enough of it. -/
def cryptBlocksF (f : Bytes → Bytes) : Nat → Bytes → Bytes
  | 0, buf => buf
  | fuel + 1, buf =>
    if 16 ≤ buf.length then f (buf.take 16) ++ cryptBlocksF f fuel (buf.drop 16)
    else buf

/-- The block loop of `gwsettings::crypt` on a whole buffer. -/
def cryptBlocks (f : Bytes → Bytes) (buf : Bytes) : Bytes :=
  cryptBlocksF f buf.length buf

/-- `gwsettings::crypt` (gwsettings.cc:317-356).  `aesE`/`aesD` are the
abstract AES-256-ECB single-block encrypt/decrypt functions, already
parameterized by the key.  When encrypting with `pad`, 16 zero bytes are
appended to the plaintext first; no padding is ever applied when
decrypting (the pad append sits in the encrypt branch of the source). -/
def crypt (aesE aesD : Bytes → Bytes → Bytes) (ibuf key : Bytes)
    (dec pad : Bool) : Bytes :=
  let ib := if !dec && pad then ibuf ++ List.replicate 16 0 else ibuf
  cryptBlocks (if dec then aesD key else aesE key) ib

/-- The success test of `gwsettings::decrypt` (gwsettings.cc:305-315): the
AES-decrypted buffer starts with the 74 magic bytes. -/
def decryptOK (aesE aesD : Bytes → Bytes → Bytes) (buf key : Bytes) : Bool :=
  (crypt aesE aesD buf key true false).take 74 == sMagic

/-- `gwsettings::decrypt_with_profile` (gwsettings.cc:293-303): try each
default key in declared order; on the first success return the decrypted
buffer and record that key. -/
def tryKeysD (aesE aesD : Bytes → Bytes → Bytes) (buf : Bytes) :
    List Bytes → Option (Bytes × Bytes)
  | [] => none
  | k :: ks =>
    if decryptOK aesE aesD buf k then some (crypt aesE aesD buf k true false, k)
    else tryKeysD aesE aesD buf ks

/-- The profile loop of `gwsettings::decrypt_and_detect_profile`
(gwsettings.cc:283-288): profiles in registry order, keys within each. -/
def tryProfilesD (aesE aesD : Bytes → Bytes → Bytes) (buf : Bytes) :
    List Profile → Option (Bytes × Bytes)
  | [] => none
  | p :: ps =>
    match tryKeysD aesE aesD buf p.default_keys with
    | some r => some r
    | none => tryProfilesD aesE aesD buf ps

/-- `gwsettings::decrypt_and_detect_profile` (gwsettings.cc:276-291): a
caller-supplied key is tried alone; otherwise the known profile's default
keys; otherwise every profile in registry order. -/
def decryptDetect (aesE aesD : Bytes → Bytes → Bytes) (registry : List Profile)
    (prof : Option Profile) (key0 buf : Bytes) : Option (Bytes × Bytes) :=
  if key0 ≠ [] then
    if decryptOK aesE aesD buf key0 then
      some (crypt aesE aesD buf key0 true false, key0)
    else none
  else
    match prof with
    | some p => tryKeysD aesE aesD buf p.default_keys
    | none => tryProfilesD aesE aesD buf registry

/-- The flattened trial order the claims describe: the caller key alone, or
the known profile's keys, or every profile's keys in registry order. -/
def trialKeys (registry : List Profile) (prof : Option Profile)
    (key0 : Bytes) : List Bytes :=
  if key0 ≠ [] then [key0]
  else
    match prof with
    | some p => p.default_keys
    | none => registry.flatMap (fun p => p.default_keys)

/-- The observable state of a `gwsettings` container after `read`
(gwsettings.cc:358-366 plus the locals of `read`).  `groups = none` means
the group-stream reader was never invoked; the group list itself is an
abstract type `G` since the group codec is not under `src/`. -/
structure GwState (G : Type) where
  checksum : Bytes
  profile : Option Profile
  auto_profile : Bool
  checksum_valid : Bool
  magic_valid : Bool
  size_valid : Bool
  encrypted : Bool
  padded : Bool
  version : Bytes
  size : Nat
  key : Bytes
  buf : Bytes
  groups : Option G
deriving DecidableEq

/-- The tail of `gwsettings::read` after a validated magic
(gwsettings.cc:173-188): read version (2 bytes) and big-endian u32 size from
the buffer past the magic, derive `size_valid`/`padded`, and hand the body
to the group-stream reader (`pb`, abstract: the group codec is not under
`src/`; it receives the body bytes and `data_bytes = size - 80`). -/
def gwFinish {G : Type} (pb : Bytes → Nat → G) (cand : Bytes)
    (prof : Option Profile) (auto cvalid : Bool) (buf key : Bytes) :
    Except String (GwState G) :=
  let rest := buf.drop 74
  if rest.length < 6 then .error ("error while reading header")
  else
    let ver := rest.take 2
    let size := rd32 (rest.drop 2)
    let sv0 := size == buf.length
    let pd := !sv0 && (size + 16 == buf.length)
    .ok { checksum := cand, profile := prof, auto_profile := auto
          checksum_valid := cvalid, magic_valid := true
          size_valid := sv0 || pd, encrypted := false, padded := pd
          version := ver, size := size, key := key, buf := buf
          groups := some (pb (buf.drop 80) (size - 80)) }

/-- `gwsettings::read` (gwsettings.cc:161-189).  `cand` is the 16-byte
candidate checksum the dispatcher already consumed; `buf0` the remaining
input; `prof0` an optionally supplied profile; `key0` the `m_key` member
(empty unless a caller installed a key). -/
def gwRead {G : Type} (md5 : Bytes → Bytes) (aesE aesD : Bytes → Bytes → Bytes)
    (pb : Bytes → Nat → G) (registry : List Profile) (prof0 : Option Profile)
    (key0 cand buf0 : Bytes) : Except String (GwState G) :=
  let d := detectProfile md5 registry prof0 cand buf0
  if buf0.take 74 == sMagic then gwFinish pb cand d.1 d.2.1 d.2.2 buf0 key0
  else
    match decryptDetect aesE aesD registry d.1 key0 buf0 with
    | some r => gwFinish pb cand d.1 d.2.1 d.2.2 r.1 r.2
    | none =>
      .ok { checksum := cand, profile := d.1, auto_profile := d.2.1
            checksum_valid := d.2.2, magic_valid := false, size_valid := false
            encrypted := true, padded := false, version := [], size := 0
            key := key0, buf := buf0, groups := none }

/-- The header-plus-body buffer built by `gwsettings::write`
(gwsettings.cc:197-209): magic, the 2 version bytes, the big-endian u32
`74 + 6 + len(body)`, then the serialized body (`wb`, abstract). -/
def gwBuildPre {G : Type} (wb : G → Bytes) (st : GwState G) : Bytes :=
  let body := match st.groups with | some g => wb g | none => []
  sMagic ++ st.version ++ be32 ((74 + 6 + body.length) % 4294967296) ++ body

/-- The buffer actually emitted by `gwsettings::write` after the optional
encryption step (gwsettings.cc:210-212). -/
def gwBuildBuf {G : Type} (aesE aesD : Bytes → Bytes → Bytes) (wb : G → Bytes)
    (st : GwState G) : Bytes :=
  if st.key ≠ [] then crypt aesE aesD (gwBuildPre wb st) st.key false st.padded
  else gwBuildPre wb st

/-- `gwsettings::write` (gwsettings.cc:191-227): requires a profile, prefixes
the MD5 checksum, and appends a 16-byte zero trailer exactly when `padded`. -/
def gwWrite {G : Type} (md5 : Bytes → Bytes) (aesE aesD : Bytes → Bytes → Bytes)
    (wb : G → Bytes) (st : GwState G) : Except String Bytes :=
  match st.profile with
  | none => .error ("cannot write file without a profile")
  | some p =>
    let buf := gwBuildBuf aesE aesD wb st
    .ok (calcChecksum md5 buf p ++ buf ++
      (if st.padded then List.replicate 16 0 else []))

/-- The observable state of a permnv/dynnv container after `permdyn::read`
(gwsettings.cc:141-143 plus the locals of `read`).  `crc_computed` records
the CRC the code computes and logs. -/
structure PermdynState (G : Type) where
  size : Nat
  checksum : Nat
  crc_computed : Nat
  checksum_valid : Bool
  groups : G
deriving DecidableEq

/-- `permdyn::read` (gwsettings.cc:79-105), on the stream after the 16
leading 0xFF bytes the dispatcher consumed: read 0xBA (186) magic bytes,
require all 0xFF, read big-endian u32 size and crc, take the first
`size + 16` bytes of the remainder, compute the CRC over them (logged only:
`m_checksum_valid` is initialized false and never assigned), then hand the
buffer to the group-stream reader with `data_bytes = size - 8`. -/
def permdynRead {G : Type} (pb : Bytes → Nat → G) (input : Bytes) :
    Except String (PermdynState G) :=
  if input.length < 194 then .error ("failed to read header")
  else if (input.take 186).any (fun b => b != 255) then
    .error ("found non-0xff byte in magic")
  else
    let size := rd32 (input.drop 186)
    let crc := rd32 (input.drop 190)
    let buf := (input.drop 194).take (size + 16)
    .ok { size := size, checksum := crc, crc_computed := permdyn_crc32 buf
          checksum_valid := false, groups := pb buf (size - 8) }

/-- `permdyn::write` (gwsettings.cc:107-126): 0xCA (202) bytes of 0xFF, the
big-endian u32 `8 + len(body)`, the big-endian u32 CRC of the body, then
the body. -/
def permdynWrite {G : Type} (wb : G → Bytes) (g : G) : Bytes :=
  let buf := wb g
  List.replicate 202 255 ++ be32 ((8 + buf.length) % 4294967296) ++
    be32 (permdyn_crc32 buf) ++ buf

/-- One outcome of a `nv_group::read` call, as seen by the group-stream
loop of `settings::read`.  Modelled from the spec: `nv_group` is not under
`src/`; §4.4 makes each call either yield a parsed group (with its name and
declared byte count) or fail.  End-of-input and the 0xFFFFFFFF terminator
both end the event list. -/
inductive GEvent where
  | ok (name : String) (nbytes : Nat)
  | bad
deriving DecidableEq

/-- One entry of `m_groups`: the group's own name, the rename suffix number
(if the loop renamed it) and the group's byte count. -/
structure GEntry where
  orig : String
  sufx : Option Nat
  nbytes : Nat
deriving DecidableEq

/-- The name stored in `m_groups` for an entry: the original name, or
`orig ++ "_" ++ n` when the loop renamed it (gwsettings.cc:390). -/
def GEntry.finalName (e : GEntry) : String :=
  match e.sufx with
  | none => e.orig
  | some n => e.orig ++ "_" ++ toString n

/-- `remaining -= group->bytes()` on a `size_t` (gwsettings.cc:394):
subtraction modulo 2^64. -/
def subWrap (a b : Nat) : Nat :=
  (a + (18446744073709551616 - b % 18446744073709551616)) % 18446744073709551616

/-- The group-stream loop of `settings::read` (gwsettings.cc:373-399) over
the event stream: while `remaining` is nonzero and input remains, read one
group; on a parse failure, permissive mode stops and keeps the groups read
so far while strict mode throws; an accepted group whose name is already in
the list is renamed with the incremented shared counter `mult` (initially
1, so the first rename ever uses `_2`).  Returns (m_groups, mult, thrown
error). -/
def settingsReadLoop (permissive : Bool) :
    Nat → Nat → List GEvent → List GEntry →
    List GEntry × Nat × Option String
  | remaining, mult, events, acc =>
    if remaining = 0 then (acc, mult, none)
    else
      match events with
      | [] => (acc, mult, none)
      | .bad :: _ =>
        if permissive then (acc, mult, none)
        else (acc, mult, some ("failed to read group"))
      | .ok name nb :: rest =>
        if (acc.map GEntry.finalName).contains name then
          settingsReadLoop permissive (subWrap remaining nb) (mult + 1) rest
            (acc ++ [{ orig := name, sufx := some (mult + 1), nbytes := nb }])
        else
          settingsReadLoop permissive (subWrap remaining nb) mult rest
            (acc ++ [{ orig := name, sufx := none, nbytes := nb }])

/-- Whether the loop's control flow reaches a failing group before
end-of-input, with `remaining` still nonzero (mode-independent). -/
def hitsBad : Nat → List GEvent → Bool
  | remaining, events =>
    if remaining = 0 then false
    else
      match events with
      | [] => false
      | .bad :: _ => true
      | .ok _ nb :: rest => hitsBad (subWrap remaining nb) rest

/-- The original names of the groups the loop accepts, in read order
(mode-independent: both modes accept the same groups). -/
def acceptedOrigs : Nat → List GEvent → List String
  | remaining, events =>
    if remaining = 0 then []
    else
      match events with
      | [] => []
      | .bad :: _ => []
      | .ok name nb :: rest => name :: acceptedOrigs (subWrap remaining nb) rest

/-! ## Helper lemmas -/

theorem permdyn_crc32_eq_raw (buf : Bytes) : permdyn_crc32 buf = crc32_raw buf :=
  Nat.xor_cancel_right 0xFFFFFFFF (crc32_raw buf)

theorem be32_length (n : Nat) : (be32 n).length = 4 := rfl

theorem rd32_be32 (n : Nat) (t : Bytes) (h : n < 4294967296) :
    rd32 (be32 n ++ t) = n := by
  show ((n / 16777216 % 256 * 256 + n / 65536 % 256) * 256 + n / 256 % 256) * 256
      + n % 256 = n
  omega

theorem cryptBlocksF_zero (f : Bytes → Bytes) (buf : Bytes) :
    cryptBlocksF f 0 buf = buf := rfl

theorem cryptBlocksF_succ (f : Bytes → Bytes) (fuel : Nat) (buf : Bytes) :
    cryptBlocksF f (fuel + 1) buf =
      if 16 ≤ buf.length then f (buf.take 16) ++ cryptBlocksF f fuel (buf.drop 16)
      else buf := rfl

theorem cryptBlocksF_length (f : Bytes → Bytes)
    (hf : ∀ b : Bytes, b.length = 16 → (f b).length = 16) :
    ∀ (fuel : Nat) (buf : Bytes), buf.length ≤ fuel →
      (cryptBlocksF f fuel buf).length = buf.length := by
  intro fuel
  induction fuel with
  | zero => intro buf h; rfl
  | succ fuel ih =>
    intro buf h
    rw [cryptBlocksF_succ]
    by_cases h16 : 16 ≤ buf.length
    · have htk : (buf.take 16).length = 16 := by
        simp [List.length_take]
        omega
      have hdr : (buf.drop 16).length = buf.length - 16 := by
        simp [List.length_drop]
      simp only [h16, if_true, List.length_append, hf _ htk,
        ih (buf.drop 16) (by omega), hdr]
      omega
    · simp [h16]

theorem cryptBlocksF_fuel_irrel (f : Bytes → Bytes) :
    ∀ (fuel fuel' : Nat) (buf : Bytes), buf.length ≤ fuel → buf.length ≤ fuel' →
      cryptBlocksF f fuel buf = cryptBlocksF f fuel' buf := by
  intro fuel
  induction fuel with
  | zero =>
    intro fuel' buf h h'
    have hz : ¬ 16 ≤ buf.length := by omega
    cases fuel' with
    | zero => rfl
    | succ k => rw [cryptBlocksF_zero, cryptBlocksF_succ]; simp [hz]
  | succ fuel ih =>
    intro fuel' buf h h'
    cases fuel' with
    | zero =>
      have hz : ¬ 16 ≤ buf.length := by omega
      rw [cryptBlocksF_zero, cryptBlocksF_succ]; simp [hz]
    | succ k =>
      rw [cryptBlocksF_succ, cryptBlocksF_succ]
      by_cases h16 : 16 ≤ buf.length
      · have hdr : (buf.drop 16).length = buf.length - 16 := by
          simp [List.length_drop]
        simp only [h16, if_true]
        rw [ih k (buf.drop 16) (by omega) (by omega)]
      · simp [h16]

theorem cryptBlocks_step (f : Bytes → Bytes) (buf : Bytes) (h : 16 ≤ buf.length) :
    cryptBlocks f buf = f (buf.take 16) ++ cryptBlocks f (buf.drop 16) := by
  obtain ⟨k, hk⟩ : ∃ k, buf.length = k + 1 := ⟨buf.length - 1, by omega⟩
  have hdr : (buf.drop 16).length = buf.length - 16 := by simp [List.length_drop]
  unfold cryptBlocks
  rw [hk, cryptBlocksF_succ]
  simp only [h, if_true]
  rw [cryptBlocksF_fuel_irrel f k ((buf.drop 16).length) (buf.drop 16)
    (by omega) (Nat.le_refl _)]

theorem cryptBlocks_small (f : Bytes → Bytes) (buf : Bytes) (h : buf.length < 16) :
    cryptBlocks f buf = buf := by
  unfold cryptBlocks
  cases hl : buf.length with
  | zero => exact rfl
  | succ k =>
    rw [cryptBlocksF_succ]
    have hz : ¬ 16 ≤ buf.length := by omega
    simp [hz]

theorem cryptBlocks_length (f : Bytes → Bytes)
    (hf : ∀ b : Bytes, b.length = 16 → (f b).length = 16) (buf : Bytes) :
    (cryptBlocks f buf).length = buf.length :=
  cryptBlocksF_length f hf buf.length buf (Nat.le_refl _)

theorem cryptBlocksF_tail (f : Bytes → Bytes)
    (hf : ∀ b : Bytes, b.length = 16 → (f b).length = 16) :
    ∀ (fuel : Nat) (buf : Bytes), buf.length ≤ fuel →
      (cryptBlocksF f fuel buf).drop (16 * (buf.length / 16)) =
        buf.drop (16 * (buf.length / 16)) := by
  intro fuel
  induction fuel with
  | zero =>
    intro buf h
    have hz : buf.length = 0 := by omega
    simp [cryptBlocksF, hz]
  | succ fuel ih =>
    intro buf h
    rw [cryptBlocksF_succ]
    by_cases h16 : 16 ≤ buf.length
    · have htk : (buf.take 16).length = 16 := by
        simp [List.length_take]
        omega
      have hdr : (buf.drop 16).length = buf.length - 16 := by simp [List.length_drop]
      have hdiv : buf.length / 16 = (buf.length - 16) / 16 + 1 := by omega
      have hmul : 16 * ((buf.length - 16) / 16 + 1) =
          (f (buf.take 16)).length + 16 * ((buf.length - 16) / 16) := by
        rw [hf _ htk]; ring
      simp only [h16, if_true, hdiv, hmul]
      rw [List.drop_append]
      have hih := ih (buf.drop 16) (by omega)
      rw [hdr] at hih
      rw [hih, List.drop_drop, hf _ htk]
    · simp [h16]

theorem cryptBlocks_tail (f : Bytes → Bytes)
    (hf : ∀ b : Bytes, b.length = 16 → (f b).length = 16) (buf : Bytes) :
    (cryptBlocks f buf).drop (16 * (buf.length / 16)) =
      buf.drop (16 * (buf.length / 16)) :=
  cryptBlocksF_tail f hf buf.length buf (Nat.le_refl _)

theorem cryptBlocksF_inv (e d : Bytes → Bytes)
    (hd : ∀ b : Bytes, b.length = 16 → (d b).length = 16)
    (hinv : ∀ b : Bytes, b.length = 16 → e (d b) = b) :
    ∀ (fuel : Nat) (c : Bytes), c.length ≤ fuel →
      cryptBlocksF e fuel (cryptBlocksF d fuel c) = c := by
  intro fuel
  induction fuel with
  | zero => intro c h; rfl
  | succ fuel ih =>
    intro c h
    by_cases h16 : 16 ≤ c.length
    · have htk : (c.take 16).length = 16 := by
        simp [List.length_take]
        omega
      have hdr : (c.drop 16).length = c.length - 16 := by simp [List.length_drop]
      have hlen : (d (c.take 16) ++ cryptBlocksF d fuel (c.drop 16)).length =
          16 + (c.length - 16) := by
        rw [List.length_append, hd _ htk,
          cryptBlocksF_length d hd fuel (c.drop 16) (by omega), hdr]
      rw [cryptBlocksF_succ d fuel c]
      simp only [h16, if_true]
      rw [cryptBlocksF_succ]
      have h16' : (16 : Nat) ≤
          (d (c.take 16) ++ cryptBlocksF d fuel (c.drop 16)).length := by
        rw [hlen]; omega
      simp only [h16', if_true]
      rw [List.take_left' (hd _ htk), List.drop_left' (hd _ htk),
        hinv _ htk, ih (c.drop 16) (by omega), List.take_append_drop]
    · have hsm : cryptBlocksF d (fuel + 1) c = c := by
        rw [cryptBlocksF_succ]; simp [h16]
      rw [hsm, cryptBlocksF_succ]; simp [h16]

theorem cryptBlocks_inv (e d : Bytes → Bytes)
    (hd : ∀ b : Bytes, b.length = 16 → (d b).length = 16)
    (hinv : ∀ b : Bytes, b.length = 16 → e (d b) = b) (c : Bytes) :
    cryptBlocks e (cryptBlocks d c) = c := by
  unfold cryptBlocks
  rw [cryptBlocksF_length d hd c.length c (Nat.le_refl _)]
  exact cryptBlocksF_inv e d hd hinv c.length c (Nat.le_refl _)

/-! ## C6 — AES block-carry policy of `gwsettings::crypt` -/

/-- C6: `crypt` processes the input in 16-byte blocks and copies a trailing
sub-block verbatim in both directions (the output length always equals the
processed input length); encrypting with `pad` first appends 16 zero bytes
to the plaintext; decrypting never pads. -/
theorem crypt_block_carry :
    (∀ (aesE aesD : Bytes → Bytes → Bytes) (ibuf key : Bytes) (pad : Bool),
        crypt aesE aesD ibuf key true pad = cryptBlocks (aesD key) ibuf) ∧
    (∀ (aesE aesD : Bytes → Bytes → Bytes) (ibuf key : Bytes),
        crypt aesE aesD ibuf key false true =
          cryptBlocks (aesE key) (ibuf ++ List.replicate 16 0) ∧
        crypt aesE aesD ibuf key false false = cryptBlocks (aesE key) ibuf) ∧
    (∀ (f : Bytes → Bytes) (buf : Bytes),
        (∀ b : Bytes, b.length = 16 → (f b).length = 16) →
        (cryptBlocks f buf).length = buf.length ∧
        (cryptBlocks f buf).drop (16 * (buf.length / 16)) =
          buf.drop (16 * (buf.length / 16))) ∧
    (∀ (f : Bytes → Bytes) (buf : Bytes), 16 ≤ buf.length →
        cryptBlocks f buf = f (buf.take 16) ++ cryptBlocks f (buf.drop 16)) := by
  refine ⟨fun aesE aesD ibuf key pad => rfl,
    fun aesE aesD ibuf key => ⟨rfl, rfl⟩,
    fun f buf hf => ⟨cryptBlocks_length f hf buf, cryptBlocks_tail f hf buf⟩,
    fun f buf h => cryptBlocks_step f buf h⟩

/-- Witness for C6 at concrete inputs: the identity block function on a
17-byte buffer, and the two `crypt` direction equations. -/
theorem crypt_block_carry_witness :
    (crypt (fun _ b => b) (fun _ b => b) [1, 2, 3] [9] true true =
      cryptBlocks ((fun (_ b : Bytes) => b) [9]) [1, 2, 3]) ∧
    (cryptBlocks (fun b : Bytes => b)
        [0, 1, 2, 3, 4, 5, 6, 7, 8, 9, 10, 11, 12, 13, 14, 15, 16]).length =
      ([0, 1, 2, 3, 4, 5, 6, 7, 8, 9, 10, 11, 12, 13, 14, 15, 16] : Bytes).length ∧
    (cryptBlocks (fun b : Bytes => b)
        [0, 1, 2, 3, 4, 5, 6, 7, 8, 9, 10, 11, 12, 13, 14, 15, 16]).drop
        (16 * (([0, 1, 2, 3, 4, 5, 6, 7, 8, 9, 10, 11, 12, 13, 14, 15, 16] :
          Bytes).length / 16)) =
      ([0, 1, 2, 3, 4, 5, 6, 7, 8, 9, 10, 11, 12, 13, 14, 15, 16] : Bytes).drop
        (16 * (([0, 1, 2, 3, 4, 5, 6, 7, 8, 9, 10, 11, 12, 13, 14, 15, 16] :
          Bytes).length / 16)) :=
  ⟨crypt_block_carry.1 (fun _ b => b) (fun _ b => b) [1, 2, 3] [9] true,
    (crypt_block_carry.2.2.1 (fun b => b)
      [0, 1, 2, 3, 4, 5, 6, 7, 8, 9, 10, 11, 12, 13, 14, 15, 16]
      (fun _ h => h)).1,
    (crypt_block_carry.2.2.1 (fun b => b)
      [0, 1, 2, 3, 4, 5, 6, 7, 8, 9, 10, 11, 12, 13, 14, 15, 16]
      (fun _ h => h)).2⟩

/-! ## C9 — `permdyn::write` layout -/

/-- C9: `permdyn::write` emits exactly 202 bytes of 0xFF, the big-endian
u32 `8 + len(body)`, the big-endian u32 CRC of the body, then the body, and
nothing else (never encrypted, never padded). -/
theorem permdyn_write_layout (G : Type) (wb : G → Bytes) (g : G)
    (h : (wb g).length + 8 < 4294967296) :
    permdynWrite wb g = List.replicate 202 255 ++ be32 (8 + (wb g).length) ++
      be32 (permdyn_crc32 (wb g)) ++ wb g ∧
    (permdynWrite wb g).take 202 = List.replicate 202 255 ∧
    ((permdynWrite wb g).drop 202).take 4 = be32 (8 + (wb g).length) ∧
    ((permdynWrite wb g).drop 206).take 4 = be32 (permdyn_crc32 (wb g)) ∧
    (permdynWrite wb g).drop 210 = wb g ∧
    (permdynWrite wb g).length = 210 + (wb g).length := by
  have hmod : (8 + (wb g).length) % 4294967296 = 8 + (wb g).length :=
    Nat.mod_eq_of_lt (by omega)
  have heq : permdynWrite wb g = List.replicate 202 255 ++
      be32 (8 + (wb g).length) ++ be32 (permdyn_crc32 (wb g)) ++ wb g := by
    show List.replicate 202 255 ++ be32 ((8 + (wb g).length) % 4294967296) ++
        be32 (permdyn_crc32 (wb g)) ++ wb g = _
    rw [hmod]
  refine ⟨heq, ?_, ?_, ?_, ?_, ?_⟩ <;>
    rw [heq, List.append_assoc, List.append_assoc]
  · rw [List.take_left' (List.length_replicate 202 255)]
  · rw [List.drop_left' (List.length_replicate 202 255),
      List.take_left' (be32_length _)]
  · have h206 : (206 : Nat) = 202 + 4 := rfl
    rw [h206, ← List.drop_drop,
      List.drop_left' (List.length_replicate 202 255),
      List.drop_left' (be32_length _), List.take_left' (be32_length _)]
  · have h210 : (210 : Nat) = 202 + 8 := rfl
    rw [h210, ← List.drop_drop,
      List.drop_left' (List.length_replicate 202 255)]
    have h8 : (8 : Nat) = 4 + 4 := rfl
    rw [h8, ← List.drop_drop, List.drop_left' (be32_length _),
      List.drop_left' (be32_length _)]
  · simp only [List.length_append, List.length_replicate, be32_length]
    omega

/-- Witness for C9 with an empty serialized body. -/
theorem permdyn_write_layout_witness :
    permdynWrite (fun _ : Unit => ([] : Bytes)) () =
      List.replicate 202 255 ++ be32 (8 + ([] : Bytes).length) ++
        be32 (permdyn_crc32 []) ++ [] ∧
    (permdynWrite (fun _ : Unit => ([] : Bytes)) ()).take 202 =
      List.replicate 202 255 ∧
    ((permdynWrite (fun _ : Unit => ([] : Bytes)) ()).drop 202).take 4 =
      be32 (8 + ([] : Bytes).length) ∧
    ((permdynWrite (fun _ : Unit => ([] : Bytes)) ()).drop 206).take 4 =
      be32 (permdyn_crc32 []) ∧
    (permdynWrite (fun _ : Unit => ([] : Bytes)) ()).drop 210 = [] ∧
    (permdynWrite (fun _ : Unit => ([] : Bytes)) ()).length =
      210 + ([] : Bytes).length :=
  permdyn_write_layout Unit (fun _ => []) () (by decide)

/-! ## C1 — `permdyn::read` CRC computation and checksum flag -/

/-- The concrete permdyn stream used to refute C1 as stated: all-0xFF magic
pad, stored size 8, stored crc 0 (which is exactly the CRC with final XOR
0xFFFFFFFF of the empty body), empty remainder. -/
def c1Input : Bytes := List.replicate 186 255 ++ be32 8 ++ be32 0

/-- Counterexample to C1 as stated: on `c1Input` the stored crc (0) equals
the CRC-32 with final XOR 0xFFFFFFFF of the body (`crc32_std [] = 0`), so
the claim requires `checksum_valid = true`; but the code computes
0xFFFFFFFF (its double XOR cancels boost's final XOR) and leaves
`checksum_valid = false` — `permdyn::read` never assigns the flag. -/
theorem permdyn_read_crc_cex :
    crc32_std [] = 0 ∧
    rd32 (c1Input.drop 190) = 0 ∧
    permdynRead (fun (_ : Bytes) (_ : Nat) => ()) c1Input =
      .ok { size := 8, checksum := 0, crc_computed := 4294967295
            checksum_valid := false, groups := () } := by
  refine ⟨rfl, by decide, ?_⟩
  rfl

/-- C1 (amended): after the 0xFF magic fill, `permdyn::read` reads the
big-endian u32 size and crc, computes the CRC-32 variant with polynomial
0x04C11DB7, reflected input and output, initial value 0xFFFFFFFF and final
XOR 0x00000000 (equivalently, the standard CRC-32 XORed once more with
0xFFFFFFFF) over the first `size + 16` bytes of the remaining input, and
only logs the comparison with the stored crc: `checksum_valid` is never
assigned and remains false, and group parsing proceeds regardless. -/
theorem permdyn_read_crc (G : Type) (pb : Bytes → Nat → G) (input : Bytes)
    (h1 : 194 ≤ input.length)
    (h2 : ∀ b ∈ input.take 186, b = 255) :
    permdynRead pb input = .ok
      { size := rd32 (input.drop 186)
        checksum := rd32 (input.drop 190)
        crc_computed :=
          crc32_raw ((input.drop 194).take (rd32 (input.drop 186) + 16))
        checksum_valid := false
        groups := pb ((input.drop 194).take (rd32 (input.drop 186) + 16))
          (rd32 (input.drop 186) - 8) } ∧
    (∀ b : Bytes, permdyn_crc32 b = crc32_raw b) ∧
    (∀ b : Bytes, permdyn_crc32 b = crc32_std b ^^^ 0xFFFFFFFF) := by
  refine ⟨?_, permdyn_crc32_eq_raw, fun b => rfl⟩
  have hlen : ¬ input.length < 194 := by omega
  have hany : (input.take 186).any (fun b => b != 255) = false := by
    rw [List.any_eq_false]
    intro b hb
    simp [h2 b hb]
  simp only [permdynRead, hlen, if_false, hany, Bool.false_eq_true,
    permdyn_crc32_eq_raw]

/-- Witness for the amended C1 at the concrete input `c1Input`. -/
theorem permdyn_read_crc_witness :
    permdynRead (fun (_ : Bytes) (_ : Nat) => ()) c1Input = .ok
      { size := rd32 (c1Input.drop 186)
        checksum := rd32 (c1Input.drop 190)
        crc_computed :=
          crc32_raw ((c1Input.drop 194).take (rd32 (c1Input.drop 186) + 16))
        checksum_valid := false
        groups := (fun (_ : Bytes) (_ : Nat) => ())
          ((c1Input.drop 194).take (rd32 (c1Input.drop 186) + 16))
          (rd32 (c1Input.drop 186) - 8) } ∧
    (∀ b : Bytes, permdyn_crc32 b = crc32_raw b) ∧
    (∀ b : Bytes, permdyn_crc32 b = crc32_std b ^^^ 0xFFFFFFFF) :=
  permdyn_read_crc Unit (fun _ _ => ()) c1Input (by decide) (by decide)

/-! ## Inversion lemmas for `gwRead` -/

theorem gwFinish_inv {G : Type} (pb : Bytes → Nat → G) (cand : Bytes)
    (prof : Option Profile) (auto cvalid : Bool) (buf key : Bytes)
    (st : GwState G)
    (h : gwFinish pb cand prof auto cvalid buf key = .ok st) :
    st.checksum = cand ∧ st.profile = prof ∧ st.auto_profile = auto ∧
    st.checksum_valid = cvalid ∧ st.magic_valid = true ∧
    st.encrypted = false ∧ st.key = key ∧ st.buf = buf ∧
    st.version = (buf.drop 74).take 2 ∧
    st.size = rd32 ((buf.drop 74).drop 2) ∧
    st.size_valid = ((st.size == buf.length) ||
      (!(st.size == buf.length) && (st.size + 16 == buf.length))) ∧
    st.padded = (!(st.size == buf.length) && (st.size + 16 == buf.length)) ∧
    st.groups = some (pb (buf.drop 80) (st.size - 80)) := by
  simp only [gwFinish] at h
  by_cases hl : (buf.drop 74).length < 6
  · rw [if_pos hl] at h
    exact Except.noConfusion h
  · rw [if_neg hl] at h
    injection h with h
    subst h
    exact ⟨rfl, rfl, rfl, rfl, rfl, rfl, rfl, rfl, rfl, rfl, rfl, rfl, rfl⟩

theorem gwRead_ok_state {G : Type} (md5 : Bytes → Bytes)
    (aesE aesD : Bytes → Bytes → Bytes) (pb : Bytes → Nat → G)
    (registry : List Profile) (prof0 : Option Profile)
    (key0 cand buf0 : Bytes) (st : GwState G)
    (h : gwRead md5 aesE aesD pb registry prof0 key0 cand buf0 = .ok st)
    (he : st.encrypted = false) :
    st.magic_valid = true ∧
    st.version = (st.buf.drop 74).take 2 ∧
    st.size = rd32 ((st.buf.drop 74).drop 2) ∧
    st.size_valid = ((st.size == st.buf.length) ||
      (!(st.size == st.buf.length) && (st.size + 16 == st.buf.length))) ∧
    st.padded = (!(st.size == st.buf.length) && (st.size + 16 == st.buf.length)) ∧
    st.groups = some (pb (st.buf.drop 80) (st.size - 80)) := by
  simp only [gwRead] at h
  by_cases hm : (buf0.take 74 == sMagic) = true
  · rw [if_pos hm] at h
    have hi := gwFinish_inv _ _ _ _ _ _ _ _ h
    obtain ⟨-, -, -, -, h5, -, -, h8, h9, h10, h11, h12, h13⟩ := hi
    rw [← h8] at h9 h10 h11 h12 h13
    exact ⟨h5, h9, h10, h11, h12, h13⟩
  · rw [if_neg hm] at h
    cases hd : decryptDetect aesE aesD registry
        (detectProfile md5 registry prof0 cand buf0).1 key0 buf0 with
    | some r =>
      rw [hd] at h
      have hi := gwFinish_inv _ _ _ _ _ _ _ _ h
      obtain ⟨-, -, -, -, h5, -, -, h8, h9, h10, h11, h12, h13⟩ := hi
      rw [← h8] at h9 h10 h11 h12 h13
      exact ⟨h5, h9, h10, h11, h12, h13⟩
    | none =>
      rw [hd] at h
      injection h with h
      rw [← h] at he
      simp at he

/-! ## Witness instantiations for the abstract primitives -/

/-- A constant stand-in digest used by witnesses. -/
def md5Zero : Bytes → Bytes := fun _ => List.replicate 16 0

/-- The identity block cipher used by witnesses. -/
def aesId : Bytes → Bytes → Bytes := fun _ b => b

/-- An involutive block cipher (XOR each byte with 1) used by witnesses for
the encrypted paths. -/
def aesX : Bytes → Bytes → Bytes := fun _ b => b.map (fun x => x ^^^ 1)

/-- A trivial group-stream parser used by witnesses. -/
def pbU : Bytes → Nat → Unit := fun _ _ => ()

/-- A trivial group-stream serializer used by witnesses. -/
def wbNil : Unit → Bytes := fun _ => []

/-! ## C3 — gwsettings size validation, padding and write trailer -/

/-- C3: after the magic is validated, `size_valid` is set exactly when the
stored size equals the (possibly decrypted) buffer length or is 16 short of
it, `padded` exactly in the latter case, and group parsing proceeds in all
cases; on write a 16-byte zero trailer is appended exactly when `padded`
is set. -/
theorem gw_size_policy :
    (∀ (G : Type) (md5 : Bytes → Bytes) (aesE aesD : Bytes → Bytes → Bytes)
        (pb : Bytes → Nat → G) (registry : List Profile)
        (prof0 : Option Profile) (key0 cand buf0 : Bytes) (st : GwState G),
      gwRead md5 aesE aesD pb registry prof0 key0 cand buf0 = .ok st →
      st.encrypted = false →
      st.size_valid =
        decide (st.size = st.buf.length ∨ st.size + 16 = st.buf.length) ∧
      st.padded =
        decide (¬ st.size = st.buf.length ∧ st.size + 16 = st.buf.length) ∧
      st.groups.isSome = true) ∧
    (∀ (G : Type) (md5 : Bytes → Bytes) (aesE aesD : Bytes → Bytes → Bytes)
        (wb : G → Bytes) (st : GwState G) (p : Profile),
      st.profile = some p →
      gwWrite md5 aesE aesD wb st = .ok
        (calcChecksum md5 (gwBuildBuf aesE aesD wb st) p ++
          gwBuildBuf aesE aesD wb st ++
          (if st.padded then List.replicate 16 0 else []))) := by
  constructor
  · intro G md5 aesE aesD pb registry prof0 key0 cand buf0 st h he
    obtain ⟨-, -, -, h4, h5, h6⟩ :=
      gwRead_ok_state md5 aesE aesD pb registry prof0 key0 cand buf0 st h he
    refine ⟨?_, ?_, ?_⟩
    · rw [h4]
      by_cases h1 : st.size = st.buf.length <;>
        by_cases h2 : st.size + 16 = st.buf.length <;> simp [h1, h2]
    · rw [h5]
      by_cases h1 : st.size = st.buf.length <;>
        by_cases h2 : st.size + 16 = st.buf.length <;> simp [h1, h2]
    · rw [h6]; rfl
  · intro G md5 aesE aesD wb st p hp
    unfold gwWrite
    rw [hp]

/-- The padded cleartext container used by the C3 witness: stored size 80,
buffer length 96. -/
def c3Buf : Bytes := sMagic ++ [1, 0] ++ be32 80 ++ List.replicate 16 0

/-- The state `gwRead` produces on `c3Buf` with a supplied generic profile. -/
def c3State : GwState Unit :=
  { checksum := List.replicate 16 0, profile := some genericP
    auto_profile := false, checksum_valid := true, magic_valid := true
    size_valid := true, encrypted := false, padded := true
    version := [1, 0], size := 80, key := [], buf := c3Buf
    groups := some () }

/-- Witness for C3: on the concrete padded container `c3Buf` the read flags
follow the claimed rule (`padded = true`, `size_valid = true`) and the
write emits the 16-byte zero trailer. -/
theorem gw_size_policy_witness :
    (c3State.size_valid =
      decide (c3State.size = c3State.buf.length ∨
        c3State.size + 16 = c3State.buf.length) ∧
    c3State.padded =
      decide (¬ c3State.size = c3State.buf.length ∧
        c3State.size + 16 = c3State.buf.length) ∧
    c3State.groups.isSome = true) ∧
    gwWrite md5Zero aesId aesId wbNil c3State = .ok
      (calcChecksum md5Zero (gwBuildBuf aesId aesId wbNil c3State) genericP ++
        gwBuildBuf aesId aesId wbNil c3State ++
        (if c3State.padded then List.replicate 16 0 else [])) := by
  constructor
  · exact gw_size_policy.1 Unit md5Zero aesId aesId pbU bcm2Profiles
      (some genericP) [] (List.replicate 16 0) c3Buf c3State (by rfl) (by rfl)
  · exact gw_size_policy.2 Unit md5Zero aesId aesId wbNil c3State genericP
      (by rfl)

/-! ## C7 — permissive vs strict group reading -/

theorem srl_mode (ev : List GEvent) : ∀ (rem m : Nat) (acc : List GEntry),
    (settingsReadLoop true rem m ev acc).1 = (settingsReadLoop false rem m ev acc).1 ∧
    (settingsReadLoop true rem m ev acc).2.1 =
      (settingsReadLoop false rem m ev acc).2.1 ∧
    (settingsReadLoop true rem m ev acc).2.2 = none ∧
    (settingsReadLoop false rem m ev acc).2.2.isSome = hitsBad rem ev := by
  induction ev with
  | nil =>
    intro rem m acc
    simp only [settingsReadLoop, hitsBad]
    by_cases h : rem = 0 <;> simp [h]
  | cons e rest ih =>
    intro rem m acc
    cases e with
    | bad =>
      simp only [settingsReadLoop, hitsBad]
      by_cases h : rem = 0 <;> simp [h]
    | ok name nb =>
      simp only [settingsReadLoop, hitsBad]
      by_cases h : rem = 0
      · simp [h]
      · simp only [h, if_false]
        by_cases hc : (acc.map GEntry.finalName).contains name <;>
          simp only [hc, if_true, if_false] <;> exact ih _ _ _

/-- C7: on the same event stream, the permissive reader never throws and
returns exactly the groups the strict reader accepts (hence a prefix of
them up to the first bad group); the strict reader throws precisely when a
group fails to parse before end-of-input (with byte budget remaining). -/
theorem group_reader_modes (rem : Nat) (ev : List GEvent) :
    (settingsReadLoop true rem 1 ev []).2.2 = none ∧
    (settingsReadLoop true rem 1 ev []).1 =
      (settingsReadLoop false rem 1 ev []).1 ∧
    (settingsReadLoop false rem 1 ev []).2.2.isSome = hitsBad rem ev := by
  obtain ⟨h1, -, h3, h4⟩ := srl_mode ev rem 1 []
  exact ⟨h3, h1, h4⟩

/-! ## C8 — duplicate-name rename policy -/

theorem srl_spec (ev : List GEvent) : ∀ (p : Bool) (rem m : Nat) (acc : List GEntry),
    ∃ Δ : List GEntry,
      (settingsReadLoop p rem m ev acc).1 = acc ++ Δ ∧
      m ≤ (settingsReadLoop p rem m ev acc).2.1 ∧
      Δ.filterMap GEntry.sufx =
        List.range' (m + 1) ((settingsReadLoop p rem m ev acc).2.1 - m) ∧
      Δ.map GEntry.orig = acceptedOrigs rem ev ∧
      (∀ (pre : List GEntry) (e : GEntry) (post : List GEntry),
        Δ = pre ++ e :: post →
        e.sufx.isSome = ((acc ++ pre).map GEntry.finalName).contains e.orig) := by
  induction ev with
  | nil =>
    intro p rem m acc
    have hres : settingsReadLoop p rem m [] acc = (acc, m, none) := by
      simp only [settingsReadLoop, ite_self]
    have hacc : acceptedOrigs rem [] = [] := by
      simp only [acceptedOrigs, ite_self]
    refine ⟨[], ?_, ?_, ?_, ?_, ?_⟩
    · rw [hres]; simp
    · rw [hres]
    · rw [hres]; simp
    · rw [hacc]; simp
    · intro pre e post h
      exact absurd h (by simp)
  | cons ev0 rest ih =>
    intro p rem m acc
    cases ev0 with
    | bad =>
      have hres : (settingsReadLoop p rem m (GEvent.bad :: rest) acc).1 = acc ∧
          (settingsReadLoop p rem m (GEvent.bad :: rest) acc).2.1 = m := by
        simp only [settingsReadLoop]
        by_cases hr : rem = 0
        · simp [hr]
        · by_cases hp : p <;> simp [hr, hp]
      have hacc : acceptedOrigs rem (GEvent.bad :: rest) = [] := by
        simp only [acceptedOrigs, ite_self]
      refine ⟨[], ?_, ?_, ?_, ?_, ?_⟩
      · rw [hres.1]; simp
      · rw [hres.2]
      · rw [hres.2]; simp
      · rw [hacc]; simp
      · intro pre e post h
        exact absurd h (by simp)
    | ok name nb =>
      by_cases hr : rem = 0
      · have hres : settingsReadLoop p rem m (GEvent.ok name nb :: rest) acc =
            (acc, m, none) := by
          simp only [settingsReadLoop, if_pos hr]
        have hacc : acceptedOrigs rem (GEvent.ok name nb :: rest) = [] := by
          simp only [acceptedOrigs, if_pos hr]
        refine ⟨[], ?_, ?_, ?_, ?_, ?_⟩
        · rw [hres]; simp
        · rw [hres]
        · rw [hres]; simp
        · rw [hacc]; simp
        · intro pre e post h
          exact absurd h (by simp)
      · have haccs : acceptedOrigs rem (GEvent.ok name nb :: rest) =
            name :: acceptedOrigs (subWrap rem nb) rest := by
          simp only [acceptedOrigs, if_neg hr]
        by_cases hc : (acc.map GEntry.finalName).contains name
        · have hres : settingsReadLoop p rem m (GEvent.ok name nb :: rest) acc =
              settingsReadLoop p (subWrap rem nb) (m + 1) rest
                (acc ++ [(⟨name, some (m + 1), nb⟩ : GEntry)]) := by
            simp only [settingsReadLoop, if_neg hr, hc, if_true]
          obtain ⟨Δ', h1, h2, h3, h4, h5⟩ := ih p (subWrap rem nb) (m + 1)
            (acc ++ [(⟨name, some (m + 1), nb⟩ : GEntry)])
          rw [hres, haccs]
          refine ⟨(⟨name, some (m + 1), nb⟩ : GEntry) :: Δ',
            ?_, ?_, ?_, ?_, ?_⟩
          · rw [h1, List.append_assoc]
            rfl
          · omega
          · rw [List.filterMap_cons]
            have hM : (settingsReadLoop p (subWrap rem nb) (m + 1) rest
                (acc ++ [(⟨name, some (m + 1), nb⟩ : GEntry)])).2.1
                - m =
                ((settingsReadLoop p (subWrap rem nb) (m + 1) rest
                  (acc ++ [(⟨name, some (m + 1), nb⟩ : GEntry)])).2.1 - (m + 1)) + 1 := by omega
            rw [hM, List.range'_succ, h3]
          · rw [List.map_cons, h4]
          · intro pre e post hΔ
            cases pre with
            | nil =>
              simp only [List.nil_append] at hΔ
              injection hΔ with he hrest
              rw [← he]
              simp only [List.append_nil, Option.isSome_some, hc]
            | cons q pre' =>
              simp only [List.cons_append] at hΔ
              injection hΔ with he hrest
              have h5' := h5 pre' e post hrest
              rw [h5', ← he, List.append_assoc]
              rfl
        · have hcf0 : (acc.map GEntry.finalName).contains name = false := by
            cases hcc : (acc.map GEntry.finalName).contains name
            · rfl
            · exact absurd hcc hc
          have hres : settingsReadLoop p rem m (GEvent.ok name nb :: rest) acc =
              settingsReadLoop p (subWrap rem nb) m rest
                (acc ++ [(⟨name, none, nb⟩ : GEntry)]) := by
            simp only [settingsReadLoop, if_neg hr, hcf0, Bool.false_eq_true,
              if_false]
          obtain ⟨Δ', h1, h2, h3, h4, h5⟩ := ih p (subWrap rem nb) m
            (acc ++ [(⟨name, none, nb⟩ : GEntry)])
          rw [hres, haccs]
          refine ⟨(⟨name, none, nb⟩ : GEntry) :: Δ',
            ?_, ?_, ?_, ?_, ?_⟩
          · rw [h1, List.append_assoc]
            rfl
          · omega
          · rw [List.filterMap_cons]
            exact h3
          · rw [List.map_cons, h4]
          · intro pre e post hΔ
            cases pre with
            | nil =>
              simp only [List.nil_append] at hΔ
              injection hΔ with he hrest
              have hcf : (acc.map GEntry.finalName).contains name = false := by
                cases hcc : (acc.map GEntry.finalName).contains name
                · rfl
                · exact absurd hcc hc
              rw [← he]
              simp only [List.append_nil, Option.isSome_none, hcf]
            | cons q pre' =>
              simp only [List.cons_append] at hΔ
              injection hΔ with he hrest
              have h5' := h5 pre' e post hrest
              rw [h5', ← he, List.append_assoc]
              rfl

/-- C8 (amended): the result entries appear in read order (their original
names are the accepted groups' names in order); the rename suffixes form
the consecutive run 2, 3, ... drawn from a single counter shared across
all names (the first renamed group in the stream gets `_2`, never `_1`, and
later renames get strictly larger numbers), so no suffix repeats; and an
entry is renamed exactly when its original name already occurs among the
final names stored before it.  (Uniqueness of the final name strings
themselves does not hold: a renamed name can collide with an original
name, see the counterexample.) -/
theorem group_rename_policy (p : Bool) (rem : Nat) (ev : List GEvent) :
    (settingsReadLoop p rem 1 ev []).1.map GEntry.orig = acceptedOrigs rem ev ∧
    (settingsReadLoop p rem 1 ev []).1.filterMap GEntry.sufx =
      List.range' 2 ((settingsReadLoop p rem 1 ev []).2.1 - 1) ∧
    (∀ (pre : List GEntry) (e : GEntry) (post : List GEntry),
      (settingsReadLoop p rem 1 ev []).1 = pre ++ e :: post →
      e.sufx.isSome = (pre.map GEntry.finalName).contains e.orig) ∧
    (∀ e, e ∈ (settingsReadLoop p rem 1 ev []).1 →
      ∀ n, e.sufx = some n → 2 ≤ n) ∧
    ((settingsReadLoop p rem 1 ev []).1.filterMap GEntry.sufx).Nodup := by
  obtain ⟨Δ, h1, h2, h3, h4, h5⟩ := srl_spec ev p rem 1 []
  simp only [List.nil_append] at h1
  rw [h1]
  refine ⟨h4, h3, fun pre e post h => by
    have := h5 pre e post h
    rwa [List.nil_append] at this, ?_, ?_⟩
  · intro e he n hn
    have hmem : n ∈ Δ.filterMap GEntry.sufx :=
      List.mem_filterMap.mpr ⟨e, he, hn⟩
    rw [h3] at hmem
    have := (List.mem_range'_1).mp hmem
    omega
  · rw [h3]
    exact List.nodup_range' _ _

/-- Witness for the amended C8 on two groups both named "a": the second is
renamed with suffix 2, recorded because its original name already occurs
among the stored names. -/
theorem group_rename_policy_witness :
    ((settingsReadLoop true 1000 1
        [GEvent.ok ("a") 1, GEvent.ok ("a") 1] []).1.map GEntry.orig =
      acceptedOrigs 1000 [GEvent.ok ("a") 1, GEvent.ok ("a") 1]) ∧
    ((settingsReadLoop true 1000 1
        [GEvent.ok ("a") 1, GEvent.ok ("a") 1] []).1.filterMap GEntry.sufx =
      List.range' 2 ((settingsReadLoop true 1000 1
        [GEvent.ok ("a") 1, GEvent.ok ("a") 1] []).2.1 - 1)) ∧
    ((⟨"a", some 2, 1⟩ : GEntry).sufx.isSome =
      (([⟨"a", none, 1⟩] : List GEntry).map GEntry.finalName).contains
        (⟨"a", some 2, 1⟩ : GEntry).orig) :=
  ⟨(group_rename_policy true 1000 [GEvent.ok ("a") 1, GEvent.ok ("a") 1]).1,
    (group_rename_policy true 1000 [GEvent.ok ("a") 1, GEvent.ok ("a") 1]).2.1,
    (group_rename_policy true 1000
      [GEvent.ok ("a") 1, GEvent.ok ("a") 1]).2.2.1
      [⟨"a", none, 1⟩] ⟨"a", some 2, 1⟩ [] (by decide)⟩

/-- Counterexample to C8 as stated: on four groups named a, a, b, b the
second duplicate pair is renamed `b_3`, not `b_2` (the counter is shared
across names); and on groups named a_2, a, a the resulting name list
contains "a_2" twice, so the resulting names are not unique. -/
theorem group_rename_policy_cex :
    ((settingsReadLoop true 1000 1
        [GEvent.ok ("a") 1, GEvent.ok ("a") 1, GEvent.ok ("b") 1,
          GEvent.ok ("b") 1] []).1.map GEntry.finalName =
      ["a", "a_2", "b", "b_3"]) ∧
    ("b_3" : String) ≠ "b_2" ∧
    ((settingsReadLoop true 1000 1
        [GEvent.ok ("a_2") 1, GEvent.ok ("a") 1, GEvent.ok ("a") 1] []).1.map
      GEntry.finalName = ["a_2", "a", "a_2"]) ∧
    ¬ (["a_2", "a", "a_2"] : List String).Nodup := by
  refine ⟨by decide, by decide, by decide, by decide⟩

/-! ## C5 — MD5 checksum profile auto-detection -/

theorem find_first_unique {α : Type} (pr : α → Bool) (p : α) :
    ∀ l : List α, p ∈ l → pr p = true → (∀ q ∈ l, pr q = true → q = p) →
      l.find? pr = some p := by
  intro l
  induction l with
  | nil => intro hm; exact absurd hm (List.not_mem_nil p)
  | cons a t ih =>
    intro hm hp hu
    by_cases ha : pr a = true
    · have hap : a = p := hu a (List.mem_cons_self a t) ha
      rw [List.find?_cons_of_pos _ ha, hap]
    · rw [List.find?_cons_of_neg _ (by simpa using ha)]
      have hmt : p ∈ t := by
        cases List.mem_cons.mp hm with
        | inl hq => exact absurd (hq ▸ hp) ha
        | inr hq => exact hq
      exact ih hmt hp (fun q hq => hu q (List.mem_cons_of_mem a hq))

/-- C5: with no supplied profile, auto-detection scans the registry in
declaration order and accepts the first profile whose
MD5(buf || md5_key) equals the candidate checksum, setting
profile/auto_profile/checksum_valid; in particular, when exactly one
profile in the registry matches, that profile is returned regardless of
the registry's list order (the conclusion depends only on membership). -/
theorem profile_autodetect (md5 : Bytes → Bytes) (cand buf : Bytes) :
    (∀ (registry : List Profile) (p : Profile),
      registry.find? (fun q => cand == calcChecksum md5 buf q) = some p →
      detectProfile md5 registry none cand buf = (some p, true, true)) ∧
    (∀ registry : List Profile,
      registry.find? (fun q => cand == calcChecksum md5 buf q) = none →
      detectProfile md5 registry none cand buf = (none, false, false)) ∧
    (∀ (registry : List Profile) (p : Profile),
      p ∈ registry → cand = calcChecksum md5 buf p →
      (∀ q ∈ registry, cand = calcChecksum md5 buf q → q = p) →
      detectProfile md5 registry none cand buf = (some p, true, true)) := by
  refine ⟨?_, ?_, ?_⟩
  · intro registry p h
    simp only [detectProfile, h]
  · intro registry h
    simp only [detectProfile, h]
  · intro registry p hm hp hu
    have hfind : registry.find? (fun q => cand == calcChecksum md5 buf q) =
        some p := by
      refine find_first_unique _ p registry hm ?_ ?_
      · exact beq_iff_eq.mpr hp
      · intro q hq hbeq
        exact hu q hq (beq_iff_eq.mp hbeq)
    simp only [detectProfile, hfind]

/-- A digest stand-in for the C5 witness that matches only the tc7200
profile's md5 key. -/
def c5md5 : Bytes → Bytes :=
  fun m => if m = [7] ++ tc7200P.md5_key then [1] else [0]

/-- Witness for C5: with `c5md5`, exactly one registry profile (tc7200)
matches, and auto-detection returns it with `auto_profile` and
`checksum_valid` set. -/
theorem profile_autodetect_witness :
    detectProfile c5md5 bcm2Profiles none [1] [7] = (some tc7200P, true, true) :=
  (profile_autodetect c5md5 [1] [7]).2.2 bcm2Profiles tc7200P
    (by decide) (by decide) (by decide)

/-! ## C4 — decryption trial order and terminal encrypted state -/

theorem tryKeysD_eq (aesE aesD : Bytes → Bytes → Bytes) (buf : Bytes) :
    ∀ keys : List Bytes,
      tryKeysD aesE aesD buf keys =
        (keys.find? (decryptOK aesE aesD buf)).map
          (fun k => (crypt aesE aesD buf k true false, k)) := by
  intro keys
  induction keys with
  | nil => rfl
  | cons k ks ih =>
    by_cases hk : decryptOK aesE aesD buf k = true
    · rw [List.find?_cons_of_pos _ hk]
      simp only [tryKeysD, hk, if_true]
      rfl
    · simp only [tryKeysD, hk, Bool.false_eq_true, if_false,
        List.find?_cons_of_neg _ (by simpa using hk), ih]

theorem tryProfilesD_eq (aesE aesD : Bytes → Bytes → Bytes) (buf : Bytes) :
    ∀ ps : List Profile,
      tryProfilesD aesE aesD buf ps =
        ((ps.flatMap (fun p => p.default_keys)).find? (decryptOK aesE aesD buf)).map
          (fun k => (crypt aesE aesD buf k true false, k)) := by
  intro ps
  induction ps with
  | nil => rfl
  | cons p pt ih =>
    rw [List.flatMap_cons, List.find?_append]
    cases hf : p.default_keys.find? (decryptOK aesE aesD buf) with
    | some k =>
      simp only [tryProfilesD, tryKeysD_eq, hf]
      rfl
    | none =>
      simp only [tryProfilesD, tryKeysD_eq, hf]
      exact ih

theorem decryptDetect_eq (aesE aesD : Bytes → Bytes → Bytes)
    (registry : List Profile) (prof : Option Profile) (key0 buf : Bytes) :
    decryptDetect aesE aesD registry prof key0 buf =
      ((trialKeys registry prof key0).find? (decryptOK aesE aesD buf)).map
        (fun k => (crypt aesE aesD buf k true false, k)) := by
  unfold decryptDetect trialKeys
  by_cases hk : key0 ≠ []
  · rw [if_pos hk, if_pos hk]
    by_cases hd : decryptOK aesE aesD buf key0 = true
    · rw [if_pos hd, List.find?_cons_of_pos _ hd]
      rfl
    · rw [if_neg hd, List.find?_cons_of_neg _ (by simpa using hd),
        List.find?_nil]
      rfl
  · rw [if_neg hk, if_neg hk]
    cases prof with
    | some p => exact tryKeysD_eq aesE aesD buf p.default_keys
    | none => exact tryProfilesD_eq aesE aesD buf registry

theorem gwRead_no_magic {G : Type} (md5 : Bytes → Bytes)
    (aesE aesD : Bytes → Bytes → Bytes) (pb : Bytes → Nat → G)
    (registry : List Profile) (prof0 : Option Profile) (key0 cand buf0 : Bytes)
    (hmag : (buf0.take 74 == sMagic) = false) :
    gwRead md5 aesE aesD pb registry prof0 key0 cand buf0 =
      match decryptDetect aesE aesD registry
          (detectProfile md5 registry prof0 cand buf0).1 key0 buf0 with
      | some r => gwFinish pb cand (detectProfile md5 registry prof0 cand buf0).1
          (detectProfile md5 registry prof0 cand buf0).2.1
          (detectProfile md5 registry prof0 cand buf0).2.2 r.1 r.2
      | none =>
        .ok { checksum := cand, profile := (detectProfile md5 registry prof0 cand buf0).1
              auto_profile := (detectProfile md5 registry prof0 cand buf0).2.1
              checksum_valid := (detectProfile md5 registry prof0 cand buf0).2.2
              magic_valid := false, size_valid := false
              encrypted := true, padded := false, version := [], size := 0
              key := key0, buf := buf0, groups := none } := by
  have hm' : ¬((buf0.take 74 == sMagic) = true) := by
    rw [hmag]; exact Bool.false_ne_true
  simp only [gwRead, if_neg hm']

/-- C4: when the magic is absent, the decryption trials are exactly, in
order: the caller key alone when set; otherwise the known (supplied or
auto-detected) profile's default keys in declared order; otherwise every
registry profile's keys in registry order — the search result is the first
key whose AES-decryption starts with the 74 magic bytes.  On the first
success the buffer is replaced by the decryption, that key is recorded and
magic_valid is set; when every trial fails the read returns (without
throwing) a container with encrypted = true, no groups, and the original
buffer. -/
theorem gw_decrypt_trials {G : Type} (md5 : Bytes → Bytes)
    (aesE aesD : Bytes → Bytes → Bytes) (pb : Bytes → Nat → G)
    (registry : List Profile) (prof0 : Option Profile) (key0 cand buf0 : Bytes)
    (hmag : (buf0.take 74 == sMagic) = false) :
    (decryptDetect aesE aesD registry
        (detectProfile md5 registry prof0 cand buf0).1 key0 buf0 =
      ((trialKeys registry (detectProfile md5 registry prof0 cand buf0).1
          key0).find? (decryptOK aesE aesD buf0)).map
        (fun k => (crypt aesE aesD buf0 k true false, k))) ∧
    ((trialKeys registry (detectProfile md5 registry prof0 cand buf0).1
        key0).find? (decryptOK aesE aesD buf0) = none →
      (gwRead md5 aesE aesD pb registry prof0 key0 cand buf0).map
        (fun st => (st.encrypted, st.groups.isNone, st.key, st.buf,
          st.magic_valid)) = .ok (true, true, key0, buf0, false)) ∧
    (∀ (k : Bytes) (st : GwState G),
      (trialKeys registry (detectProfile md5 registry prof0 cand buf0).1
        key0).find? (decryptOK aesE aesD buf0) = some k →
      gwRead md5 aesE aesD pb registry prof0 key0 cand buf0 = .ok st →
      st.key = k ∧ st.buf = crypt aesE aesD buf0 k true false ∧
      st.magic_valid = true ∧ st.encrypted = false) := by
  refine ⟨decryptDetect_eq aesE aesD registry _ key0 buf0, ?_, ?_⟩
  · intro hnone
    rw [gwRead_no_magic md5 aesE aesD pb registry prof0 key0 cand buf0 hmag,
      decryptDetect_eq aesE aesD registry _ key0 buf0, hnone]
    rfl
  · intro k st hsome hread
    rw [gwRead_no_magic md5 aesE aesD pb registry prof0 key0 cand buf0 hmag,
      decryptDetect_eq aesE aesD registry _ key0 buf0, hsome] at hread
    have hi := gwFinish_inv _ _ _ _ _ _ _ _ hread
    obtain ⟨-, -, -, -, h5, h6, h7, h8, -⟩ := hi
    exact ⟨h7, h8, h5, h6⟩

/-- The cleartext header-only gwsettings image used by the encrypted-path
witnesses: magic, version 1.0, size 80, no body (80 bytes, five AES
blocks). -/
def c4Plain : Bytes := sMagic ++ [1, 0] ++ be32 80

/-- `c4Plain` encrypted with the involutive XOR block cipher `aesX`. -/
def c4Cipher : Bytes := cryptBlocks (aesX [9]) c4Plain

/-- The state `gwRead` produces on `c4Cipher` with caller key [9]. -/
def c4State : GwState Unit :=
  { checksum := List.replicate 16 0, profile := some genericP
    auto_profile := false, checksum_valid := true, magic_valid := true
    size_valid := true, encrypted := false, padded := false
    version := [1, 0], size := 80, key := [9], buf := c4Plain
    groups := some () }

/-- Witness for C4 on a concrete encrypted container: the caller key [9] is
the single trial, it succeeds, the buffer is replaced by the decryption and
the key recorded. -/
theorem gw_decrypt_trials_witness :
    (decryptDetect aesX aesX bcm2Profiles
        (detectProfile md5Zero bcm2Profiles (some genericP)
          (List.replicate 16 0) c4Cipher).1 [9] c4Cipher =
      ((trialKeys bcm2Profiles
          (detectProfile md5Zero bcm2Profiles (some genericP)
            (List.replicate 16 0) c4Cipher).1 [9]).find?
          (decryptOK aesX aesX c4Cipher)).map
        (fun k => (crypt aesX aesX c4Cipher k true false, k))) ∧
    (c4State.key = [9] ∧ c4State.buf = crypt aesX aesX c4Cipher [9] true false ∧
      c4State.magic_valid = true ∧ c4State.encrypted = false) :=
  ⟨(gw_decrypt_trials md5Zero aesX aesX pbU bcm2Profiles (some genericP)
      [9] (List.replicate 16 0) c4Cipher (by decide)).1,
    (gw_decrypt_trials md5Zero aesX aesX pbU bcm2Profiles (some genericP)
      [9] (List.replicate 16 0) c4Cipher (by decide)).2.2 [9] c4State
      (by decide) (by rfl)⟩

/-! ## C10 — failed decryption leaves buffer and key untouched -/

/-- C10: when the magic is absent, no caller key was installed, and every
trial key fails the decryption test, the read still succeeds and the
returned container holds the original ciphertext byte-for-byte, an empty
recorded key, `encrypted = true` and no groups. -/
theorem gw_failed_decrypt_state {G : Type} (md5 : Bytes → Bytes)
    (aesE aesD : Bytes → Bytes → Bytes) (pb : Bytes → Nat → G)
    (registry : List Profile) (prof0 : Option Profile) (cand buf0 : Bytes)
    (hmag : (buf0.take 74 == sMagic) = false)
    (hfail : ∀ k ∈ trialKeys registry
        (detectProfile md5 registry prof0 cand buf0).1 [],
      decryptOK aesE aesD buf0 k = false) :
    (gwRead md5 aesE aesD pb registry prof0 [] cand buf0).map
      (fun st => (st.buf, st.key, st.encrypted, st.groups.isNone)) =
      .ok (buf0, [], true, true) := by
  have hnone : (trialKeys registry
      (detectProfile md5 registry prof0 cand buf0).1 []).find?
      (decryptOK aesE aesD buf0) = none := by
    rw [List.find?_eq_none]
    intro k hk
    simp [hfail k hk]
  rw [gwRead_no_magic md5 aesE aesD pb registry prof0 [] cand buf0 hmag,
    decryptDetect_eq aesE aesD registry _ [] buf0, hnone]
  rfl

/-- Witness for C10: a 3-byte junk buffer, no caller key, no matching
profile; both registry default keys fail and the state keeps the original
bytes with an empty key. -/
theorem gw_failed_decrypt_state_witness :
    (gwRead md5Zero aesId aesId pbU bcm2Profiles none [] [5] [1, 2, 3]).map
      (fun st => (st.buf, st.key, st.encrypted, st.groups.isNone)) =
      .ok ([1, 2, 3], [], true, true) :=
  gw_failed_decrypt_state md5Zero aesId aesId pbU bcm2Profiles none [5]
    [1, 2, 3] (by decide) (by decide)

/-! ## Helper lemmas for the round-trip claim -/

theorem sMagic_length : sMagic.length = 74 := by decide

theorem crypt_dec_eq (aesE aesD : Bytes → Bytes → Bytes) (ibuf key : Bytes)
    (pad : Bool) : crypt aesE aesD ibuf key true pad = cryptBlocks (aesD key) ibuf :=
  rfl

theorem crypt_enc_eq (aesE aesD : Bytes → Bytes → Bytes) (ibuf key : Bytes) :
    crypt aesE aesD ibuf key false false = cryptBlocks (aesE key) ibuf := rfl

theorem detectProfile_some_eq (md5 : Bytes → Bytes) (registry : List Profile)
    (p : Profile) (cand buf : Bytes) :
    detectProfile md5 registry (some p) cand buf =
      (some p, false, cand == calcChecksum md5 buf p) := rfl

theorem detectProfile_of_find (md5 : Bytes → Bytes) (registry : List Profile)
    (cand buf : Bytes) (p : Profile)
    (h : registry.find? (fun q => cand == calcChecksum md5 buf q) = some p) :
    detectProfile md5 registry none cand buf = (some p, true, true) := by
  simp only [detectProfile, h]

theorem crcStep_lt (c : Nat) (h : c < 4294967296) : crcStep c < 4294967296 := by
  unfold crcStep
  by_cases h2 : c % 2 = 1
  · rw [if_pos h2]
    exact Nat.xor_lt_two_pow (n := 32) (by omega) (by omega)
  · rw [if_neg h2]
    omega

theorem crc32_update_lt (c b : Nat) (h : c < 4294967296) :
    crc32_update c b < 4294967296 := by
  unfold crc32_update
  have hx : c ^^^ b % 256 < 4294967296 :=
    Nat.xor_lt_two_pow (n := 32) (by omega) (by omega)
  have hstep : ∀ k x, x < 4294967296 → crcStep^[k] x < 4294967296 := by
    intro k
    induction k with
    | zero => intro x hx0; exact hx0
    | succ k ih =>
      intro x hx0
      rw [Function.iterate_succ_apply]
      exact ih (crcStep x) (crcStep_lt x hx0)
  exact hstep 8 _ hx

theorem crc32_raw_lt (buf : Bytes) : crc32_raw buf < 4294967296 := by
  unfold crc32_raw
  have : ∀ (l : Bytes) (init : Nat), init < 4294967296 →
      l.foldl crc32_update init < 4294967296 := by
    intro l
    induction l with
    | nil => intro init h; exact h
    | cons a t ih =>
      intro init h
      rw [List.foldl_cons]
      exact ih (crc32_update init a) (crc32_update_lt init a h)
  exact this buf 0xFFFFFFFF (by omega)

theorem permdyn_crc32_lt (buf : Bytes) : permdyn_crc32 buf < 4294967296 := by
  rw [permdyn_crc32_eq_raw]
  exact crc32_raw_lt buf

theorem gwWrite_some {G : Type} (md5 : Bytes → Bytes)
    (aesE aesD : Bytes → Bytes → Bytes) (wb : G → Bytes) (st : GwState G)
    (p : Profile) (h : st.profile = some p) :
    gwWrite md5 aesE aesD wb st = .ok
      (calcChecksum md5 (gwBuildBuf aesE aesD wb st) p ++
        gwBuildBuf aesE aesD wb st ++
        (if st.padded then List.replicate 16 0 else [])) := by
  unfold gwWrite
  rw [h]

theorem gwFinish_decomp {G : Type} (pb : Bytes → Nat → G) (cand : Bytes)
    (prof : Option Profile) (auto cvalid : Bool) (ver tail key : Bytes)
    (n : Nat) (hver : ver.length = 2) (hn : n < 4294967296) :
    gwFinish pb cand prof auto cvalid (sMagic ++ (ver ++ (be32 n ++ tail))) key =
      .ok { checksum := cand, profile := prof, auto_profile := auto
            checksum_valid := cvalid, magic_valid := true
            size_valid := ((n == 80 + tail.length) ||
              (!(n == 80 + tail.length) && (n + 16 == 80 + tail.length)))
            encrypted := false
            padded := (!(n == 80 + tail.length) && (n + 16 == 80 + tail.length))
            version := ver, size := n, key := key
            buf := sMagic ++ (ver ++ (be32 n ++ tail))
            groups := some (pb tail (n - 80)) } := by
  have hd74 : (sMagic ++ (ver ++ (be32 n ++ tail))).drop 74 =
      ver ++ (be32 n ++ tail) := List.drop_left' sMagic_length
  have hd2 : (ver ++ (be32 n ++ tail)).drop 2 = be32 n ++ tail :=
    List.drop_left' hver
  have hlen6 : (ver ++ (be32 n ++ tail)).length = 6 + tail.length := by
    rw [List.length_append, List.length_append, hver, be32_length]
    omega
  have hnl : ¬ ((ver ++ (be32 n ++ tail)).length < 6) := by omega
  have htk2 : (ver ++ (be32 n ++ tail)).take 2 = ver := List.take_left' hver
  have hrd : rd32 ((ver ++ (be32 n ++ tail)).drop 2) = n := by
    rw [hd2]
    exact rd32_be32 n tail hn
  have hblen : (sMagic ++ (ver ++ (be32 n ++ tail))).length = 80 + tail.length := by
    rw [List.length_append, List.length_append, List.length_append,
      sMagic_length, hver, be32_length]
    omega
  have hd80 : (sMagic ++ (ver ++ (be32 n ++ tail))).drop 80 = tail := by
    have h80 : (80 : Nat) = 74 + 6 := rfl
    have h6 : (6 : Nat) = 2 + 4 := rfl
    rw [h80, ← List.drop_drop, List.drop_left' sMagic_length, h6,
      ← List.drop_drop, List.drop_left' hver, List.drop_left' (be32_length n)]
  simp only [gwFinish, hd74, hnl, if_false, htk2, hrd, hblen, hd80]

theorem permdynRead_decomp {G : Type} (pb : Bytes → Nat → G) (n crc : Nat)
    (body : Bytes) (hn : n < 4294967296) (hcrc : crc < 4294967296) :
    permdynRead pb (List.replicate 186 255 ++ (be32 n ++ (be32 crc ++ body))) =
      .ok { size := n, checksum := crc
            crc_computed := permdyn_crc32 (body.take (n + 16))
            checksum_valid := false
            groups := pb (body.take (n + 16)) (n - 8) } := by
  have hlen : (List.replicate 186 255 ++ (be32 n ++ (be32 crc ++ body))).length =
      194 + body.length := by
    rw [List.length_append, List.length_append, List.length_append,
      List.length_replicate, be32_length, be32_length]
    omega
  have hnl : ¬ ((List.replicate 186 255 ++
      (be32 n ++ (be32 crc ++ body))).length < 194) := by omega
  have htk : (List.replicate 186 255 ++ (be32 n ++ (be32 crc ++ body))).take 186 =
      List.replicate 186 255 := List.take_left' (List.length_replicate 186 255)
  have hany : ((List.replicate 186 255 ++
      (be32 n ++ (be32 crc ++ body))).take 186).any (fun b => b != 255) = false := by
    rw [htk, List.any_eq_false]
    intro b hb
    have := List.eq_of_mem_replicate hb
    simp [this]
  have hd186 : (List.replicate 186 255 ++ (be32 n ++ (be32 crc ++ body))).drop 186 =
      be32 n ++ (be32 crc ++ body) :=
    List.drop_left' (List.length_replicate 186 255)
  have hd190 : (List.replicate 186 255 ++ (be32 n ++ (be32 crc ++ body))).drop 190 =
      be32 crc ++ body := by
    have h190 : (190 : Nat) = 186 + 4 := rfl
    rw [h190, ← List.drop_drop, List.drop_left' (List.length_replicate 186 255),
      List.drop_left' (be32_length n)]
  have hd194 : (List.replicate 186 255 ++ (be32 n ++ (be32 crc ++ body))).drop 194 =
      body := by
    have h194 : (194 : Nat) = 186 + 8 := rfl
    have h8 : (8 : Nat) = 4 + 4 := rfl
    rw [h194, ← List.drop_drop, List.drop_left' (List.length_replicate 186 255),
      h8, ← List.drop_drop, List.drop_left' (be32_length n),
      List.drop_left' (be32_length crc)]
  have hrdn : rd32 ((List.replicate 186 255 ++
      (be32 n ++ (be32 crc ++ body))).drop 186) = n := by
    rw [hd186]
    exact rd32_be32 n _ hn
  have hrdc : rd32 ((List.replicate 186 255 ++
      (be32 n ++ (be32 crc ++ body))).drop 190) = crc := by
    rw [hd190]
    exact rd32_be32 crc _ hcrc
  simp only [permdynRead, hnl, if_false, hany, Bool.false_eq_true, hrdn, hrdc,
    hd194]

theorem ok_bind {ε α β : Type} (a : α) (f : α → Except ε β) :
    (Except.ok a : Except ε α).bind f = f a := rfl

theorem gwRead_magic_eq {G : Type} (md5 : Bytes → Bytes)
    (aesE aesD : Bytes → Bytes → Bytes) (pb : Bytes → Nat → G)
    (registry : List Profile) (prof0 : Option Profile) (key0 cand buf0 : Bytes)
    (hmag : (buf0.take 74 == sMagic) = true) :
    gwRead md5 aesE aesD pb registry prof0 key0 cand buf0 =
      gwFinish pb cand (detectProfile md5 registry prof0 cand buf0).1
        (detectProfile md5 registry prof0 cand buf0).2.1
        (detectProfile md5 registry prof0 cand buf0).2.2 buf0 key0 := by
  simp only [gwRead]
  rw [if_pos hmag]

theorem roundtrip_permdyn_aux {G : Type} (pb : Bytes → Nat → G) (wb : G → Bytes)
    (body b : Bytes)
    (hb : b = List.replicate 202 255 ++ (be32 (8 + body.length) ++
      (be32 (permdyn_crc32 body) ++ body)))
    (hlen : 8 + body.length < 4294967296)
    (hwb : wb (pb body body.length) = body) :
    (permdynRead pb (b.drop 16)).map (fun st => permdynWrite wb st.groups) =
      .ok b := by
  subst hb
  have hsplit : (List.replicate 202 255 : Bytes) =
      List.replicate 16 255 ++ List.replicate 186 255 := by
    rw [← List.replicate_add]
  have hdrop : (List.replicate 202 255 ++ (be32 (8 + body.length) ++
      (be32 (permdyn_crc32 body) ++ body))).drop 16 =
      List.replicate 186 255 ++ (be32 (8 + body.length) ++
        (be32 (permdyn_crc32 body) ++ body)) := by
    rw [hsplit, List.append_assoc, List.drop_left' (List.length_replicate 16 255)]
  rw [hdrop, permdynRead_decomp pb (8 + body.length) (permdyn_crc32 body) body
    hlen (permdyn_crc32_lt body)]
  have htk : body.take (8 + body.length + 16) = body :=
    List.take_of_length_le (by omega)
  have hidx : 8 + body.length - 8 = body.length := by omega
  show Except.ok (permdynWrite wb
      (pb (body.take (8 + body.length + 16)) (8 + body.length - 8))) = _
  rw [htk, hidx]
  have hmod : (8 + body.length) % 4294967296 = 8 + body.length :=
    Nat.mod_eq_of_lt (by omega)
  show Except.ok (List.replicate 202 255 ++
      be32 ((8 + (wb (pb body body.length)).length) % 4294967296) ++
      be32 (permdyn_crc32 (wb (pb body body.length))) ++
      wb (pb body body.length)) = _
  rw [hwb, hmod]
  simp [List.append_assoc]

theorem roundtrip_gw_plain_aux {G : Type} (md5 : Bytes → Bytes)
    (aesE aesD : Bytes → Bytes → Bytes) (pb : Bytes → Nat → G) (wb : G → Bytes)
    (registry : List Profile) (p : Profile) (ver body : Bytes)
    (hver : ver.length = 2)
    (hn : 80 + body.length < 4294967296)
    (hwb : wb (pb body body.length) = body)
    (hfind : registry.find? (fun q =>
      calcChecksum md5 (sMagic ++ (ver ++ (be32 (80 + body.length) ++ body))) p ==
      calcChecksum md5 (sMagic ++ (ver ++ (be32 (80 + body.length) ++ body))) q) =
      some p) :
    (gwRead md5 aesE aesD pb registry none []
        (calcChecksum md5 (sMagic ++ (ver ++ (be32 (80 + body.length) ++ body))) p)
        (sMagic ++ (ver ++ (be32 (80 + body.length) ++ body)))).bind
      (gwWrite md5 aesE aesD wb) =
      .ok (calcChecksum md5 (sMagic ++ (ver ++ (be32 (80 + body.length) ++ body))) p
        ++ (sMagic ++ (ver ++ (be32 (80 + body.length) ++ body)))) := by
  have hmag : ((sMagic ++ (ver ++ (be32 (80 + body.length) ++ body))).take 74 ==
      sMagic) = true := by
    rw [List.take_left' sMagic_length]
    exact beq_self_eq_true _
  rw [gwRead_magic_eq md5 aesE aesD pb registry none [] _ _ hmag,
    detectProfile_of_find md5 registry _ _ p hfind]
  show (gwFinish pb _ (some p) true true _ []).bind (gwWrite md5 aesE aesD wb) = _
  rw [gwFinish_decomp pb _ (some p) true true ver body [] (80 + body.length)
    hver hn]
  rw [ok_bind]
  simp only [gwWrite]
  have hsub : 80 + body.length - 80 = body.length := by omega
  have hmod : (74 + 6 + body.length) % 4294967296 = 80 + body.length := by omega
  have hbb : gwBuildBuf aesE aesD wb
      { checksum := calcChecksum md5
          (sMagic ++ (ver ++ (be32 (80 + body.length) ++ body))) p
        profile := some p, auto_profile := true, checksum_valid := true
        magic_valid := true
        size_valid := ((80 + body.length == 80 + body.length) ||
          (!(80 + body.length == 80 + body.length) &&
            (80 + body.length + 16 == 80 + body.length)))
        encrypted := false
        padded := (!(80 + body.length == 80 + body.length) &&
          (80 + body.length + 16 == 80 + body.length))
        version := ver, size := 80 + body.length, key := []
        buf := sMagic ++ (ver ++ (be32 (80 + body.length) ++ body))
        groups := some (pb body (80 + body.length - 80)) } =
      sMagic ++ (ver ++ (be32 (80 + body.length) ++ body)) := by
    simp only [gwBuildBuf, gwBuildPre]
    rw [if_neg (by simp)]
    rw [hsub, hwb, hmod]
    simp [List.append_assoc]
  rw [hbb]
  have hpad : (!(80 + body.length == 80 + body.length) &&
      (80 + body.length + 16 == 80 + body.length)) = false := by
    simp
  simp only [hpad, Bool.false_eq_true, if_false, List.append_nil]

theorem roundtrip_gw_padded_aux {G : Type} (md5 : Bytes → Bytes)
    (aesE aesD : Bytes → Bytes → Bytes) (pb : Bytes → Nat → G) (wb : G → Bytes)
    (registry : List Profile) (p : Profile) (ver body : Bytes)
    (hver : ver.length = 2)
    (hn : 80 + body.length < 4294967296)
    (hwb : wb (pb (body ++ List.replicate 16 0) body.length) = body) :
    (gwRead md5 aesE aesD pb registry (some p) []
        (calcChecksum md5 (sMagic ++ (ver ++ (be32 (80 + body.length) ++ body))) p)
        (sMagic ++ (ver ++ (be32 (80 + body.length) ++
          (body ++ List.replicate 16 0))))).bind
      (gwWrite md5 aesE aesD wb) =
      .ok (calcChecksum md5 (sMagic ++ (ver ++ (be32 (80 + body.length) ++ body))) p
        ++ (sMagic ++ (ver ++ (be32 (80 + body.length) ++
          (body ++ List.replicate 16 0))))) := by
  have hmag : ((sMagic ++ (ver ++ (be32 (80 + body.length) ++
      (body ++ List.replicate 16 0)))).take 74 == sMagic) = true := by
    rw [List.take_left' sMagic_length]
    exact beq_self_eq_true _
  rw [gwRead_magic_eq md5 aesE aesD pb registry (some p) [] _ _ hmag,
    detectProfile_some_eq md5 registry p _ _]
  show (gwFinish pb _ (some p) false _
    (sMagic ++ (ver ++ (be32 (80 + body.length) ++
      (body ++ List.replicate 16 0)))) []).bind (gwWrite md5 aesE aesD wb) = _
  rw [gwFinish_decomp pb _ (some p) false _ ver (body ++ List.replicate 16 0) []
    (80 + body.length) hver hn]
  rw [ok_bind]
  simp only [gwWrite]
  have hlen16 : (body ++ List.replicate 16 0).length = body.length + 16 := by
    simp
  have hb1 : (80 + body.length == 80 + (body ++ List.replicate 16 0).length) =
      false := by
    rw [hlen16]
    exact beq_eq_false_iff_ne.mpr (by omega)
  have hb2 : (80 + body.length + 16 == 80 + (body ++ List.replicate 16 0).length)
      = true := by
    rw [hlen16]
    exact beq_iff_eq.mpr (by omega)
  have hpad : (!(80 + body.length == 80 + (body ++ List.replicate 16 0).length)
      && (80 + body.length + 16 ==
        80 + (body ++ List.replicate 16 0).length)) = true := by
    rw [hb1, hb2]
    rfl
  have hsub : 80 + body.length - 80 = body.length := by omega
  have hmod : (74 + 6 + body.length) % 4294967296 = 80 + body.length := by omega
  have hbb : gwBuildBuf aesE aesD wb
      { checksum := calcChecksum md5
          (sMagic ++ (ver ++ (be32 (80 + body.length) ++ body))) p
        profile := some p, auto_profile := false
        checksum_valid := (calcChecksum md5
          (sMagic ++ (ver ++ (be32 (80 + body.length) ++ body))) p ==
          calcChecksum md5 (sMagic ++ (ver ++ (be32 (80 + body.length) ++
            (body ++ List.replicate 16 0)))) p)
        magic_valid := true
        size_valid := ((80 + body.length ==
            80 + (body ++ List.replicate 16 0).length) ||
          (!(80 + body.length == 80 + (body ++ List.replicate 16 0).length) &&
            (80 + body.length + 16 ==
              80 + (body ++ List.replicate 16 0).length)))
        encrypted := false
        padded := (!(80 + body.length ==
            80 + (body ++ List.replicate 16 0).length) &&
          (80 + body.length + 16 == 80 + (body ++ List.replicate 16 0).length))
        version := ver, size := 80 + body.length, key := []
        buf := sMagic ++ (ver ++ (be32 (80 + body.length) ++
          (body ++ List.replicate 16 0)))
        groups := some (pb (body ++ List.replicate 16 0)
          (80 + body.length - 80)) } =
      sMagic ++ (ver ++ (be32 (80 + body.length) ++ body)) := by
    simp only [gwBuildBuf, gwBuildPre]
    rw [if_neg (by simp)]
    rw [hsub, hwb, hmod]
    simp [List.append_assoc]
  rw [hbb, hpad]
  simp [List.append_assoc]

theorem roundtrip_gw_encrypted_aux {G : Type} (md5 : Bytes → Bytes)
    (aesE aesD : Bytes → Bytes → Bytes) (pb : Bytes → Nat → G) (wb : G → Bytes)
    (registry : List Profile) (p : Profile) (ver body k cipher : Bytes)
    (hver : ver.length = 2)
    (hn : 80 + body.length < 4294967296)
    (hk : k ≠ [])
    (hd16 : ∀ bl : Bytes, bl.length = 16 → (aesD k bl).length = 16)
    (hinv : ∀ bl : Bytes, bl.length = 16 → aesE k (aesD k bl) = bl)
    (hdec : cryptBlocks (aesD k) cipher =
      sMagic ++ (ver ++ (be32 (80 + body.length) ++ body)))
    (hnomag : (cipher.take 74 == sMagic) = false)
    (hwb : wb (pb body body.length) = body) :
    (gwRead md5 aesE aesD pb registry (some p) k
        (calcChecksum md5 cipher p) cipher).bind (gwWrite md5 aesE aesD wb) =
      .ok (calcChecksum md5 cipher p ++ cipher) := by
  rw [gwRead_no_magic md5 aesE aesD pb registry (some p) k _ cipher hnomag]
  have hok : decryptOK aesE aesD cipher k = true := by
    unfold decryptOK
    rw [crypt_dec_eq, hdec, List.take_left' sMagic_length]
    exact beq_self_eq_true _
  have hdd : ∀ prof : Option Profile,
      decryptDetect aesE aesD registry prof k cipher =
        some (crypt aesE aesD cipher k true false, k) := by
    intro prof
    unfold decryptDetect
    rw [if_pos hk, if_pos hok]
  rw [hdd]
  have hcr : crypt aesE aesD cipher k true false =
      sMagic ++ (ver ++ (be32 (80 + body.length) ++ body)) := by
    rw [crypt_dec_eq]
    exact hdec
  show (gwFinish pb _ (some p) false _
    (crypt aesE aesD cipher k true false) k).bind (gwWrite md5 aesE aesD wb) = _
  rw [hcr, gwFinish_decomp pb _ (some p) false _ ver body k (80 + body.length)
    hver hn]
  rw [ok_bind]
  simp only [gwWrite]
  have hsub : 80 + body.length - 80 = body.length := by omega
  have hmod : (74 + 6 + body.length) % 4294967296 = 80 + body.length := by omega
  have hpadf : (!(80 + body.length == 80 + body.length) &&
      (80 + body.length + 16 == 80 + body.length)) = false := by
    simp
  have hbb : gwBuildBuf aesE aesD wb
      { checksum := calcChecksum md5 cipher p
        profile := some p, auto_profile := false
        checksum_valid := (detectProfile md5 registry (some p)
          (calcChecksum md5 cipher p) cipher).2.2
        magic_valid := true
        size_valid := ((80 + body.length == 80 + body.length) ||
          (!(80 + body.length == 80 + body.length) &&
            (80 + body.length + 16 == 80 + body.length)))
        encrypted := false
        padded := (!(80 + body.length == 80 + body.length) &&
          (80 + body.length + 16 == 80 + body.length))
        version := ver, size := 80 + body.length, key := k
        buf := sMagic ++ (ver ++ (be32 (80 + body.length) ++ body))
        groups := some (pb body (80 + body.length - 80)) } = cipher := by
    simp only [gwBuildBuf, gwBuildPre]
    rw [if_pos hk, hpadf, hsub, hwb, hmod]
    have hassoc : sMagic ++ ver ++ be32 (80 + body.length) ++ body =
        sMagic ++ (ver ++ (be32 (80 + body.length) ++ body)) := by
      simp [List.append_assoc]
    rw [crypt]
    simp only [Bool.not_false, Bool.and_false, Bool.false_and]
    show cryptBlocks (aesE k) (sMagic ++ ver ++ be32 (80 + body.length) ++ body)
      = cipher
    rw [hassoc, ← hdec, cryptBlocks_inv (aesE k) (aesD k) hd16 hinv cipher]
  rw [hbb, hpadf]
  simp

/-! ## C2 — encode ∘ decode round-trip -/

/-- C2: encoding the container obtained by decoding a well-formed container
byte string with a known profile reproduces the original bytes exactly, for
the permdyn codec and for the gwsettings codec in its cleartext, padded and
encrypted variants.  The group codec is not under `src/`, so the body layer
enters as the abstract pair `pb`/`wb` with the body-level round-trip as a
hypothesis; well-formedness is the explicit decomposition of the input. -/
theorem encode_decode_roundtrip :
    (∀ (G : Type) (pb : Bytes → Nat → G) (wb : G → Bytes) (body b : Bytes),
      b = List.replicate 202 255 ++ (be32 (8 + body.length) ++
        (be32 (permdyn_crc32 body) ++ body)) →
      8 + body.length < 4294967296 →
      wb (pb body body.length) = body →
      (permdynRead pb (b.drop 16)).map (fun st => permdynWrite wb st.groups) =
        .ok b) ∧
    (∀ (G : Type) (md5 : Bytes → Bytes) (aesE aesD : Bytes → Bytes → Bytes)
        (pb : Bytes → Nat → G) (wb : G → Bytes) (registry : List Profile)
        (p : Profile) (ver body : Bytes),
      ver.length = 2 → 80 + body.length < 4294967296 →
      wb (pb body body.length) = body →
      registry.find? (fun q =>
        calcChecksum md5 (sMagic ++ (ver ++ (be32 (80 + body.length) ++ body))) p
        == calcChecksum md5
          (sMagic ++ (ver ++ (be32 (80 + body.length) ++ body))) q) = some p →
      (gwRead md5 aesE aesD pb registry none []
          (calcChecksum md5
            (sMagic ++ (ver ++ (be32 (80 + body.length) ++ body))) p)
          (sMagic ++ (ver ++ (be32 (80 + body.length) ++ body)))).bind
        (gwWrite md5 aesE aesD wb) =
        .ok (calcChecksum md5
            (sMagic ++ (ver ++ (be32 (80 + body.length) ++ body))) p ++
          (sMagic ++ (ver ++ (be32 (80 + body.length) ++ body))))) ∧
    (∀ (G : Type) (md5 : Bytes → Bytes) (aesE aesD : Bytes → Bytes → Bytes)
        (pb : Bytes → Nat → G) (wb : G → Bytes) (registry : List Profile)
        (p : Profile) (ver body : Bytes),
      ver.length = 2 → 80 + body.length < 4294967296 →
      wb (pb (body ++ List.replicate 16 0) body.length) = body →
      (gwRead md5 aesE aesD pb registry (some p) []
          (calcChecksum md5
            (sMagic ++ (ver ++ (be32 (80 + body.length) ++ body))) p)
          (sMagic ++ (ver ++ (be32 (80 + body.length) ++
            (body ++ List.replicate 16 0))))).bind
        (gwWrite md5 aesE aesD wb) =
        .ok (calcChecksum md5
            (sMagic ++ (ver ++ (be32 (80 + body.length) ++ body))) p ++
          (sMagic ++ (ver ++ (be32 (80 + body.length) ++
            (body ++ List.replicate 16 0)))))) ∧
    (∀ (G : Type) (md5 : Bytes → Bytes) (aesE aesD : Bytes → Bytes → Bytes)
        (pb : Bytes → Nat → G) (wb : G → Bytes) (registry : List Profile)
        (p : Profile) (ver body k cipher : Bytes),
      ver.length = 2 → 80 + body.length < 4294967296 → k ≠ [] →
      (∀ bl : Bytes, bl.length = 16 → (aesD k bl).length = 16) →
      (∀ bl : Bytes, bl.length = 16 → aesE k (aesD k bl) = bl) →
      cryptBlocks (aesD k) cipher =
        sMagic ++ (ver ++ (be32 (80 + body.length) ++ body)) →
      (cipher.take 74 == sMagic) = false →
      wb (pb body body.length) = body →
      (gwRead md5 aesE aesD pb registry (some p) k
          (calcChecksum md5 cipher p) cipher).bind (gwWrite md5 aesE aesD wb) =
        .ok (calcChecksum md5 cipher p ++ cipher)) :=
  ⟨fun G pb wb body b h1 h2 h3 => roundtrip_permdyn_aux pb wb body b h1 h2 h3,
    fun G md5 aesE aesD pb wb registry p ver body h1 h2 h3 h4 =>
      roundtrip_gw_plain_aux md5 aesE aesD pb wb registry p ver body h1 h2 h3 h4,
    fun G md5 aesE aesD pb wb registry p ver body h1 h2 h3 =>
      roundtrip_gw_padded_aux md5 aesE aesD pb wb registry p ver body h1 h2 h3,
    fun G md5 aesE aesD pb wb registry p ver body k cipher h1 h2 h3 h4 h5 h6 h7 h8 =>
      roundtrip_gw_encrypted_aux md5 aesE aesD pb wb registry p ver body k cipher
        h1 h2 h3 h4 h5 h6 h7 h8⟩

theorem aesX_block_len (k bl : Bytes) (h : bl.length = 16) :
    (aesX k bl).length = 16 := by
  simp [aesX, h]

theorem aesX_block_inv (k bl : Bytes) (h : bl.length = 16) :
    aesX k (aesX k bl) = bl := by
  simp only [aesX, List.map_map]
  have hcomp : ((fun x => x ^^^ 1) ∘ fun x : Nat => x ^^^ 1) = id := by
    funext x
    simp [Function.comp, Nat.xor_cancel_right]
  rw [hcomp, List.map_id]

/-- Witness for C2: concrete empty-body containers for all four variants —
a permdyn image, a cleartext gwsettings image with auto-detected profile, a
padded cleartext image with a supplied profile, and an XOR-"encrypted"
image with a caller key — each reproduced byte-for-byte. -/
theorem encode_decode_roundtrip_witness :
    ((permdynRead pbU ((List.replicate 202 255 ++ (be32 (8 + ([] : Bytes).length)
        ++ (be32 (permdyn_crc32 []) ++ []))).drop 16)).map
      (fun st => permdynWrite wbNil st.groups) =
      .ok (List.replicate 202 255 ++ (be32 (8 + ([] : Bytes).length) ++
        (be32 (permdyn_crc32 []) ++ [])))) ∧
    ((gwRead md5Zero aesId aesId pbU bcm2Profiles none []
        (calcChecksum md5Zero
          (sMagic ++ ([1, 0] ++ (be32 (80 + ([] : Bytes).length) ++ [])))
          genericP)
        (sMagic ++ ([1, 0] ++ (be32 (80 + ([] : Bytes).length) ++ [])))).bind
      (gwWrite md5Zero aesId aesId wbNil) =
      .ok (calcChecksum md5Zero
          (sMagic ++ ([1, 0] ++ (be32 (80 + ([] : Bytes).length) ++ [])))
          genericP ++
        (sMagic ++ ([1, 0] ++ (be32 (80 + ([] : Bytes).length) ++ []))))) ∧
    ((gwRead md5Zero aesId aesId pbU bcm2Profiles (some genericP) []
        (calcChecksum md5Zero
          (sMagic ++ ([1, 0] ++ (be32 (80 + ([] : Bytes).length) ++ [])))
          genericP)
        (sMagic ++ ([1, 0] ++ (be32 (80 + ([] : Bytes).length) ++
          ([] ++ List.replicate 16 0))))).bind
      (gwWrite md5Zero aesId aesId wbNil) =
      .ok (calcChecksum md5Zero
          (sMagic ++ ([1, 0] ++ (be32 (80 + ([] : Bytes).length) ++ [])))
          genericP ++
        (sMagic ++ ([1, 0] ++ (be32 (80 + ([] : Bytes).length) ++
          ([] ++ List.replicate 16 0)))))) ∧
    ((gwRead md5Zero aesX aesX pbU bcm2Profiles (some genericP) [9]
        (calcChecksum md5Zero c4Cipher genericP) c4Cipher).bind
      (gwWrite md5Zero aesX aesX wbNil) =
      .ok (calcChecksum md5Zero c4Cipher genericP ++ c4Cipher)) :=
  ⟨encode_decode_roundtrip.1 Unit pbU wbNil [] _ rfl (by decide) rfl,
    encode_decode_roundtrip.2.1 Unit md5Zero aesId aesId pbU wbNil bcm2Profiles
      genericP [1, 0] [] (by decide) (by decide) rfl (by decide),
    encode_decode_roundtrip.2.2.1 Unit md5Zero aesId aesId pbU wbNil
      bcm2Profiles genericP [1, 0] [] (by decide) (by decide) rfl,
    encode_decode_roundtrip.2.2.2 Unit md5Zero aesX aesX pbU wbNil bcm2Profiles
      genericP [1, 0] [] [9] c4Cipher (by decide) (by decide) (by decide)
      (fun bl h => aesX_block_len [9] bl h)
      (fun bl h => aesX_block_inv [9] bl h) (by decide) (by decide) rfl⟩

end Bcm2Spec
